import Mathlib

/-!
Verification model of the neuragrid-smarteyes-delivery pipeline.

Shallow embedding of the asynchronous multi-channel delivery pipeline:
the template renderer (helper.RenderTemplate), the AES-256-CFB secure
config codec (helper.EncryptAES256 / helper.DecryptAES256), the provider
factories (providers.CreateWhatsAppProvider / providers.CreateSMSProvider),
the WhatsApp producer (queue.WhatsAppProducer.ProduceWhatsAppMessage), and
the per-channel consumers (queue.WhatsAppConsumer, queue.SMSConsumer,
queue.EmailConsumer) together with the broker acknowledgment decision of
queue.PulsarClient.ConsumeMessages.

Modelling conventions:
- Go strings are Lean `String`s; where character-level reasoning is needed
  (the template renderer) they are `List Char`.
- Go `map[string]string` values are association lists
  `List (List Char × List Char)`; Go map iteration order is unspecified, so
  every theorem quantifies over the list order.
- Database reads are environment parameters (the row the query would
  return, if any); database writes are recorded in an explicit action
  trace, and are modelled as always succeeding (store errors are
  infrastructure failures outside these claims).
- Vendor HTTP calls are opaque parameters returning `none` on success or
  `some err` on failure; the trace records each call made.
- External library behaviour (Go text/template, crypto/cipher CFB mode)
  is modelled on exactly the fragment the repository exercises, as
  documented at each definition.
-/

/-- Message / event status taxonomy (models.Status and
models.MessageEventType share the same string constants, so one type
models both). -/
inductive Status where
  | accepted
  | sent
  | delivered
  | read
  | rejected
deriving DecidableEq, Repr

/-- Delivery channels (models.Channel). -/
inductive Channel where
  | whatsapp
  | sms
  | email
deriving DecidableEq, Repr

/-! ## Template renderer (src/src/helper/utils.go, RenderTemplate)

Go's `text/template` and `strings.Replace` are modelled at character
level. `strings.Replace(s, old, new, -1)` replaces all non-overlapping
occurrences left to right. Go's template parser is modelled on the
fragment reachable from RenderTemplate: input is split into literal text
and actions delimited by the `\x7b\x7b` / `\x7d\x7d` markers; the only
action form the rewrite in RenderTemplate produces is a call of the
registered function `var` on a quoted string literal, and any other
action body (in particular a bare identifier that is not a registered
function, which is what an unrewritten placeholder leaves behind) is a
parse error, as in Go. -/

/-- The literal character `\x7b`. -/
def lbrace : Char := '\x7b'

/-- The literal character `\x7d`. -/
def rbrace : Char := '\x7d'

/-- The literal double-quote character. -/
def dquote : Char := '\x22'

/-- Fuelled worker for `goReplaceAll`; fuel `≥` input length makes it
total and kernel-computable. -/
def goReplaceAllF : Nat → List Char → List Char → List Char → List Char
  | 0, s, _, _ => s
  | _ + 1, [], _, _ => []
  | fuel + 1, c :: rest, pat, rep =>
    if pat ≠ [] ∧ pat.isPrefixOf (c :: rest) then
      rep ++ goReplaceAllF fuel (rest.drop (pat.length - 1)) pat rep
    else
      c :: goReplaceAllF fuel rest pat rep

/-- Model of Go `strings.Replace(s, pat, rep, -1)`: replace every
non-overlapping occurrence of `pat` in `s` by `rep`, left to right.
(Faithful for the non-empty patterns RenderTemplate uses; Go's
empty-pattern insertion behaviour is not exercised.) -/
def goReplaceAll (s pat rep : List Char) : List Char :=
  goReplaceAllF s.length s pat rep

/-- The literal placeholder text `\x7b\x7bkey\x7d\x7d` that RenderTemplate
searches for. -/
def placeholderPat (key : List Char) : List Char :=
  lbrace :: lbrace :: (key ++ [rbrace, rbrace])

/-- The rewritten action `\x7b\x7bvar "key"\x7d\x7d` that RenderTemplate
substitutes for a placeholder whose key is present in the params map. -/
def rewrittenPat (key : List Char) : List Char :=
  lbrace :: lbrace :: 'v' :: 'a' :: 'r' :: ' ' :: dquote :: (key ++ [dquote, rbrace, rbrace])

/-- The placeholder-rewriting loop of RenderTemplate: for each key of the
vars map, replace every literal `\x7b\x7bkey\x7d\x7d` by
`\x7b\x7bvar "key"\x7d\x7d`. -/
def applyVars (vars : List (List Char × List Char)) (s : List Char) : List Char :=
  vars.foldl (fun acc kv => goReplaceAll acc (placeholderPat kv.1) (rewrittenPat kv.1)) s

/-- A parsed template node: literal text, or a call of the registered
`var` function on a string literal. -/
inductive Node where
  | text (s : List Char)
  | varCall (key : List Char)
deriving DecidableEq, Repr

/-- Split off the text before the first `\x7b\x7b` marker; the second
component is the remainder after the marker when one exists. -/
def splitAtOpen : List Char → List Char × Option (List Char)
  | [] => ([], none)
  | [c] => ([c], none)
  | c1 :: c2 :: rest =>
    if c1 = lbrace ∧ c2 = lbrace then ([], some rest)
    else
      let p := splitAtOpen (c2 :: rest)
      (c1 :: p.1, p.2)

/-- Split off the action body before the first `\x7d\x7d` marker; `none`
when the action is unclosed. -/
def splitAtClose : List Char → Option (List Char × List Char)
  | [] => none
  | [_] => none
  | c1 :: c2 :: rest =>
    if c1 = rbrace ∧ c2 = rbrace then some ([], rest)
    else
      match splitAtClose (c2 :: rest) with
      | some p => some (c1 :: p.1, p.2)
      | none => none

/-- Drop leading spaces of an action body. -/
def dropSpaces (s : List Char) : List Char := s.dropWhile (fun c => c = ' ')

/-- Parse an action body. The only valid form in the fragment reachable
from RenderTemplate is `var "key"`; anything else (for example the bare
identifier left behind by a placeholder whose key is absent from the
params map, which Go reports as an undefined function) is a parse
error, signalled by `none`. -/
def parseVarAction (body : List Char) : Option (List Char) :=
  match dropSpaces body with
  | c1 :: c2 :: c3 :: c4 :: rest =>
    if c1 = 'v' ∧ c2 = 'a' ∧ c3 = 'r' ∧ c4 = ' ' then
      match dropSpaces rest with
      | q :: rest2 =>
        if q = dquote then
          let key := rest2.takeWhile (fun c => ¬ (c = dquote))
          match rest2.dropWhile (fun c => ¬ (c = dquote)) with
          | _ :: rest3 => if dropSpaces rest3 = [] then some key else none
          | [] => none
        else none
      | [] => none
    else none
  | _ => none

/-- Fuelled worker for `parseTemplate`. -/
def parseTemplateF : Nat → List Char → Except String (List Node)
  | 0, _ => .error ("out of fuel")
  | fuel + 1, s =>
    match splitAtOpen s with
    | (txt, none) => .ok [Node.text txt]
    | (txt, some rest) =>
      match splitAtClose rest with
      | none => .error ("unclosed action")
      | some (body, rest2) =>
        match parseVarAction body with
        | none => .error ("function not defined")
        | some key =>
          match parseTemplateF fuel rest2 with
          | .error e => .error e
          | .ok nodes => .ok (Node.text txt :: Node.varCall key :: nodes)

/-- Model of parsing the (already rewritten) template text with the `var`
function map registered, as `template.New("message").Funcs(funcMap).Parse`
does. -/
def parseTemplate (s : List Char) : Except String (List Node) :=
  parseTemplateF (s.length + 1) s

/-- The `var` lookup function registered in RenderTemplate's FuncMap:
the key's value when present, the empty string otherwise. -/
def lookupVar (vars : List (List Char × List Char)) (key : List Char) : List Char :=
  match vars.find? (fun kv => kv.1 == key) with
  | some kv => kv.2
  | none => []

/-- Evaluate one parsed node. -/
def execNode (vars : List (List Char × List Char)) : Node → List Char
  | .text s => s
  | .varCall key => lookupVar vars key

/-- Template execution: the concatenation of the evaluated nodes, as
`tmpl.Execute` writes them to the buffer. -/
def execNodes (vars : List (List Char × List Char)) (nodes : List Node) : List Char :=
  (nodes.map (execNode vars)).flatten

/-- Model of helper.RenderTemplate: rewrite each present key's
placeholder to a `var` call, parse, then execute with the `var` lookup
function. The parse error text is simplified (Go wraps the text/template
error as `failed to parse template: ...`). -/
def RenderTemplate (templateContent : List Char) (vars : List (List Char × List Char)) :
    Except String (List Char) :=
  match parseTemplate (applyVars vars templateContent) with
  | .error e => .error ("failed to parse template: " ++ e)
  | .ok nodes => .ok (execNodes vars nodes)

/-! ## Secure config codec (src/unnamed/part_019, EncryptAES256 / DecryptAES256)

Go's `crypto/aes` block cipher is abstracted as a block-encryption
function `E` on 16-byte blocks (CFB mode only ever uses the encryption
direction of the block cipher, for both encryption and decryption).
`cipher.NewCFBEncrypter` / `NewCFBDecrypter` with full-block segments are
modelled: the keystream block is `E` of the previous ciphertext block
(the IV for the first block), XORed bytewise into the data. Bytes are
`Nat`s; `Nat.xor` on byte values models the Go byte XOR. The fresh
random IV that `io.ReadFull(rand.Reader, iv)` draws is an explicit
16-byte parameter. -/

/-- aes.BlockSize. -/
def aesBlockSize : Nat := 16

/-- Bytewise XOR of two byte strings (cipher.xorBytes). -/
def xorBytes (a b : List Nat) : List Nat := List.zipWith Nat.xor a b

/-- Fuelled worker for CFB encryption: each 16-byte chunk of plaintext is
XORed with `E` of the previous ciphertext block (initially the IV), and
the resulting ciphertext block feeds the next chunk. -/
def cfbEncryptF (E : List Nat → List Nat) : Nat → List Nat → List Nat → List Nat
  | 0, _, _ => []
  | fuel + 1, prev, pt =>
    if pt = [] then []
    else
      xorBytes (pt.take aesBlockSize) (E prev) ++
        cfbEncryptF E fuel (xorBytes (pt.take aesBlockSize) (E prev)) (pt.drop aesBlockSize)

/-- CFB-mode encryption keystream walk starting from the IV. -/
def cfbEncrypt (E : List Nat → List Nat) (iv pt : List Nat) : List Nat :=
  cfbEncryptF E pt.length iv pt

/-- Fuelled worker for CFB decryption: each 16-byte ciphertext block is
XORed with `E` of the previous ciphertext block (initially the IV). -/
def cfbDecryptF (E : List Nat → List Nat) : Nat → List Nat → List Nat → List Nat
  | 0, _, _ => []
  | fuel + 1, prev, ct =>
    if ct = [] then []
    else
      xorBytes (ct.take aesBlockSize) (E prev) ++
        cfbDecryptF E fuel (ct.take aesBlockSize) (ct.drop aesBlockSize)

/-- CFB-mode decryption keystream walk starting from the IV. -/
def cfbDecrypt (E : List Nat → List Nat) (iv ct : List Nat) : List Nat :=
  cfbDecryptF E ct.length iv ct

/-- Model of helper.EncryptAES256: reject keys that are not 32 bytes,
then emit the random IV followed by the CFB ciphertext. `E` is the AES
block encryption under `key`. -/
def EncryptAES256 (E : List Nat → List Nat) (iv : List Nat) (plaintext key : List Nat) :
    Except String (List Nat) :=
  if key.length ≠ 32 then .error ("encryption key must be 32 bytes for AES-256")
  else .ok (iv ++ cfbEncrypt E iv plaintext)

/-- Model of helper.DecryptAES256: reject keys that are not 32 bytes and
ciphertexts shorter than one AES block, then split off the IV and CFB
decrypt the remainder. -/
def DecryptAES256 (E : List Nat → List Nat) (ciphertext key : List Nat) :
    Except String (List Nat) :=
  if key.length ≠ 32 then .error ("decryption key must be 32 bytes for AES-256")
  else if ciphertext.length < aesBlockSize then .error ("ciphertext too short")
  else .ok (cfbDecrypt E (ciphertext.take aesBlockSize) (ciphertext.drop aesBlockSize))

/-! ## Data model (src/src/models) -/

/-- WhatsApp identifiers block (models.WhatsAppIdentifiers). -/
structure WhatsAppIdentifiers where
  tenant : String
  eventUUID : String
  actionUUID : String
  actionCode : String
deriving DecidableEq, Repr

/-- A WhatsApp recipient (models.WhatsAppRecipient). -/
structure WhatsAppRecipient where
  name : String
  telephone : String
deriving DecidableEq, Repr

/-- The WhatsApp message body (models.WhatsAppMessage); attachments are
omitted (never read by the consumer paths modelled here). Params use the
renderer's character-list representation. -/
structure WhatsAppMessageBody where
  template : String
  To : List WhatsAppRecipient
  provider : String
  refNo : String
  categories : List String
  identifiers : WhatsAppIdentifiers
  params : List (List Char × List Char)
deriving DecidableEq, Repr

/-- The queue envelope (queue.WhatsAppMessage): a message UUID paired
with the channel message body. -/
structure WhatsAppEnvelope where
  uuid : String
  message : WhatsAppMessageBody
deriving DecidableEq, Repr

/-- A Message row (models.Message). The JSON-encoded identifiers and
categories columns are kept as structured data; timestamps are omitted. -/
structure Message where
  id : Nat
  uuid : String
  channel : Channel
  status : Status
  refNo : String
  identifiers : WhatsAppIdentifiers
  categories : List String
deriving DecidableEq, Repr

/-- A MessageEvent row of the variant keyed by Message.UUID
(src/unnamed/part_003), used by the WhatsApp consumer. The event's own
random UUID, metadata and timestamps are omitted. -/
structure MessageEvent where
  messageID : String
  status : Status
  reason : String
deriving DecidableEq, Repr

/-- A MessageEvent row of the variant keyed by the numeric Message.ID
(src/unnamed/part_002), used by the SMS consumer. -/
structure SMSEvent where
  messageID : Nat
  status : Status
  reason : String
deriving DecidableEq, Repr

/-- A vendor template-id value in Template.TemplateIds: the JSON value is
either a string (the usable case) or some other JSON type, which
getProviderTemplateID rejects. -/
inductive TemplateIdValue where
  | str (s : String)
  | nonString
deriving DecidableEq, Repr

/-- A Template row (models.Template); only the fields the consumers read. -/
structure Template where
  uuid : String
  name : String
  content : List Char
  templateIds : Option (List (String × TemplateIdValue))
deriving DecidableEq, Repr

/-- A Provider row (models.Provider); only the fields the factories and
consumers read. The `provider` field is the vendor implementation
discriminator. -/
structure Provider where
  uuid : String
  code : String
  provider : String
  name : String
deriving DecidableEq, Repr

/-! ## Provider factories (src/src/services/sms.go CreateWhatsAppProvider,
src/src/services/providers/sms_factory.go CreateSMSProvider) -/

/-- ASCII model of Go strings.ToLower. -/
def goToLower (s : String) : String := String.mk (s.data.map Char.toLower)

/-- ASCII model of Go strings.ToUpper. -/
def goToUpper (s : String) : String := String.mk (s.data.map Char.toUpper)

/-- The WhatsApp adapters the factory can construct (whatsapp.TwilioProvider
is the only implementation). -/
inductive WhatsAppAdapter where
  | twilio
deriving DecidableEq, Repr

/-- The SMS adapters the factory can construct (sms.TwilioProvider is the
only implementation). -/
inductive SMSAdapter where
  | twilio
deriving DecidableEq, Repr

/-- Model of providers.CreateWhatsAppProvider: switch on the raw
`Provider.Provider` discriminator; only the exact string TWILIO selects
the Twilio constructor (`twilioCtor` stands for
whatsapp.NewTwilioProviderFromDB, whose outcome depends on the provider
config). A nil provider cannot arise in the model. -/
def CreateWhatsAppProvider (provider : Provider)
    (twilioCtor : Except String WhatsAppAdapter) : Except String WhatsAppAdapter :=
  if provider.provider = "TWILIO" then twilioCtor
  else .error ("unsupported WhatsApp provider implementation: " ++ provider.provider)

/-- Model of providers.CreateSMSProvider: upper-case the discriminator
first (case-insensitive comparison), then switch. -/
def CreateSMSProvider (provider : Provider)
    (twilioCtor : Except String SMSAdapter) : Except String SMSAdapter :=
  if goToUpper provider.provider = "TWILIO" then twilioCtor
  else .error ("unsupported SMS provider implementation: " ++ provider.provider)

/-! ## WhatsApp consumer (src/unnamed/part_013, WhatsAppConsumer)

Database writes are recorded as a trace of actions; reads are supplied by
a `WhatsAppConsumerEnv` (the row each query would return). The vendor
call `whatsappProvider.SendTemplate` is the opaque `send` parameter, and
every invocation is recorded in the `sends` trace. Event rows carry the
generated reason strings of the source; random event UUIDs and
timestamps are omitted. -/

/-- A database write performed by the WhatsApp consumer. -/
inductive DBAction where
  | insertMessage (m : Message)
  | saveMessage (m : Message)
  | insertEvent (e : MessageEvent)
deriving DecidableEq, Repr

/-- The read results and external outcomes the WhatsApp consumer's
handleMessage depends on. `createProvider` is the outcome of
createProviderFromConfig (provider re-fetch plus factory call);
`send r` is the outcome of SendTemplate for recipient `r` (`none` =
vendor accepted). -/
structure WhatsAppConsumerEnv where
  findMessage : Option Message
  findTemplate : Option Template
  findProvider : Option Provider
  createProvider : Except String Unit
  send : WhatsAppRecipient → Option String
deriving Inhabited

/-- WhatsAppConsumer.createRejectionEvent: a REJECTED event carrying the
reason. -/
def WhatsAppConsumer.createRejectionEvent (messageID reason : String) : MessageEvent :=
  { messageID := messageID, status := .rejected, reason := reason }

/-- WhatsAppConsumer.createSuccessEvent: a SENT event with the fixed
success reason. -/
def WhatsAppConsumer.createSuccessEvent (messageID : String) : MessageEvent :=
  { messageID := messageID, status := .sent, reason := "Message sent successfully" }

/-- WhatsAppConsumer.rejectMessage: set the message status to REJECTED,
save it, append a REJECTED event, and return `errors.New(reason)` — a
non-nil error — to the caller. -/
def WhatsAppConsumer.rejectMessage (message : Message) (reason : String) :
    Except String Unit × Message × List DBAction :=
  let m := { message with status := Status.rejected }
  (.error reason, m,
    [DBAction.saveMessage m,
     DBAction.insertEvent (WhatsAppConsumer.createRejectionEvent message.uuid reason)])

/-- WhatsAppConsumer.fetchOrCreateMessageFromDB: return the stored row
when the UUID is found; otherwise insert a fresh ACCEPTED row built from
the envelope (the numeric id is store-assigned, modelled as 0) plus an
ACCEPTED audit event, and return the new row. -/
def WhatsAppConsumer.fetchOrCreateMessageFromDB (env : WhatsAppConsumerEnv)
    (messageUUID : String) (message : WhatsAppMessageBody) : Message × List DBAction :=
  match env.findMessage with
  | some dbMessage => (dbMessage, [])
  | none =>
    let newMessage : Message :=
      { id := 0, uuid := messageUUID, channel := .whatsapp, status := .accepted,
        refNo := message.refNo, identifiers := message.identifiers,
        categories := message.categories }
    (newMessage,
      [DBAction.insertMessage newMessage,
       DBAction.insertEvent
         { messageID := messageUUID, status := .accepted,
           reason := "Message created during processing due to missing record" }])

/-- WhatsAppConsumer.getProviderTemplateID: look up the vendor template
id under the lower-cased provider implementation name. -/
def WhatsAppConsumer.getProviderTemplateID (template : Template) (providerName : String) :
    Except String String :=
  match template.templateIds with
  | none => .error ("template_ids field is empty in template")
  | some ids =>
    match ids.find? (fun kv => kv.1 == goToLower providerName) with
    | none => .error ("template ID not found for provider " ++ providerName)
    | some kv =>
      match kv.2 with
      | .str s => .ok s
      | .nonString => .error ("invalid template ID format for provider " ++ providerName)

/-- The Go `paramsWithRenderedContent` map: the params map with the
`rendered_content` key set to the rendered template text. -/
def paramsWithRenderedContent (params : List (List Char × List Char))
    (renderedContent : List Char) : List (List Char × List Char) :=
  (params.filter (fun kv => ¬ (kv.1 == ("rendered_content".toList)))) ++
    [(("rendered_content".toList), renderedContent)]

/-- One iteration of the recipient loop in
WhatsAppConsumer.sendToRecipients. State: (atLeastOneSuccess, current
message row, write trace, vendor-call trace). -/
def WhatsAppConsumer.sendToRecipientsStep (send : WhatsAppRecipient → Option String)
    (templateContent : List Char) (params : List (List Char × List Char))
    (st : Bool × Message × List DBAction × List WhatsAppRecipient)
    (recipient : WhatsAppRecipient) :
    Bool × Message × List DBAction × List WhatsAppRecipient :=
  let ok := st.1
  let m := st.2.1
  let acts := st.2.2.1
  let sends := st.2.2.2
  match RenderTemplate templateContent params with
  | .error e =>
    let errMsg := "Failed to render template for " ++ recipient.telephone ++ ": " ++ e
    let m1 := { m with status := Status.rejected }
    (ok, m1,
      acts ++ [DBAction.saveMessage m1,
               DBAction.insertEvent (WhatsAppConsumer.createRejectionEvent m.uuid errMsg)],
      sends)
  | .ok _ =>
    match send recipient with
    | some err =>
      let errMsg := "Failed to send WhatsApp message to " ++ recipient.telephone ++ ": " ++ err
      let m1 := { m with status := Status.rejected }
      (ok, m1,
        acts ++ [DBAction.saveMessage m1,
                 DBAction.insertEvent (WhatsAppConsumer.createRejectionEvent m.uuid errMsg)],
        sends ++ [recipient])
    | none =>
      (true, m,
        acts ++ [DBAction.insertEvent (WhatsAppConsumer.createSuccessEvent m.uuid)],
        sends ++ [recipient])

/-- WhatsAppConsumer.sendToRecipients: loop over all recipients (render,
vendor call, per-recipient events), then save the final batch status —
SENT when at least one vendor call succeeded, REJECTED otherwise.
Returns the final message row, the write trace, and the vendor-call
trace. -/
def WhatsAppConsumer.sendToRecipients (send : WhatsAppRecipient → Option String)
    (dbMessage : Message) (recipients : List WhatsAppRecipient) (_templateID : String)
    (params : List (List Char × List Char)) (templateContent : List Char) :
    Message × List DBAction × List WhatsAppRecipient :=
  let st := recipients.foldl
    (WhatsAppConsumer.sendToRecipientsStep send templateContent params)
    (false, dbMessage, [], [])
  let final := { st.2.1 with status := if st.1 then Status.sent else Status.rejected }
  (final, st.2.2.1 ++ [DBAction.saveMessage final], st.2.2.2)

/-- The result of handling one WhatsApp envelope: the handler's returned
error (if any), the database write trace, and the vendor-call trace. -/
structure HandleResult where
  result : Except String Unit
  actions : List DBAction
  sends : List WhatsAppRecipient
deriving Repr

/-- WhatsAppConsumer.handleMessage on an already-unmarshalled envelope:
fetch-or-create the Message row, resolve template, provider, vendor
template id and adapter (each failure taking the rejectMessage path,
whose non-nil error is returned), mark the row ACCEPTED, run
sendToRecipients, and save the updated timestamp. -/
def WhatsAppConsumer.handleMessage (env : WhatsAppConsumerEnv)
    (queueMessage : WhatsAppEnvelope) : HandleResult :=
  let message := queueMessage.message
  let fc := WhatsAppConsumer.fetchOrCreateMessageFromDB env queueMessage.uuid message
  let dbMessage := fc.1
  let acts0 := fc.2
  match env.findTemplate with
  | none =>
    let r := WhatsAppConsumer.rejectMessage dbMessage
      ("template not found or inactive: " ++ message.template)
    { result := r.1, actions := acts0 ++ r.2.2, sends := [] }
  | some template =>
    match env.findProvider with
    | none =>
      let r := WhatsAppConsumer.rejectMessage dbMessage
        ("provider not found or inactive: " ++ message.provider)
      { result := r.1, actions := acts0 ++ r.2.2, sends := [] }
    | some provider =>
      match WhatsAppConsumer.getProviderTemplateID template provider.provider with
      | .error e =>
        let r := WhatsAppConsumer.rejectMessage dbMessage e
        { result := r.1, actions := acts0 ++ r.2.2, sends := [] }
      | .ok templateID =>
        match env.createProvider with
        | .error e =>
          let r := WhatsAppConsumer.rejectMessage dbMessage
            ("failed to create WhatsApp provider: " ++ e)
          { result := r.1, actions := acts0 ++ r.2.2, sends := [] }
        | .ok _ =>
          let m1 := { dbMessage with status := Status.accepted }
          let sr := WhatsAppConsumer.sendToRecipients env.send m1 message.To templateID
            message.params template.content
          { result := .ok (),
            actions := acts0 ++ [DBAction.saveMessage m1] ++ sr.2.1 ++
              [DBAction.saveMessage sr.1],
            sends := sr.2.2 }

/-- The acknowledgment decision of PulsarClient.ConsumeMessages: Nack the
envelope when the handler returned a non-nil error, Ack it otherwise. -/
inductive BrokerOutcome where
  | ack
  | nack
deriving DecidableEq, Repr

/-- PulsarClient.ConsumeMessages acknowledgment of one envelope, given
the handler's result. -/
def consumeOutcome (r : Except String Unit) : BrokerOutcome :=
  match r with
  | .ok _ => .ack
  | .error _ => .nack

/-! ## SMS consumer (src/src/services/queue/email_consumer.go, second
file: SMSConsumer.processSMSMessage)

The SMS consumer resolves template and provider like the WhatsApp
consumer, but its rejectMessage returns the (nil-on-success) result of
createRejectionEvent, and it sends only to the first recipient. Its
events are keyed by the numeric Message.ID. -/

/-- An SMS recipient (models.SMSRecipient); only the telephone is read. -/
structure SMSRecipient where
  telephone : String
deriving DecidableEq, Repr

/-- The SMS message body (models.SMSMessage); only the fields
processSMSMessage reads. -/
structure SMSMessageBody where
  template : String
  To : List SMSRecipient
  provider : String
  refNo : String
  tenantID : String
  params : List (List Char × List Char)
deriving DecidableEq, Repr

/-- The SMS queue envelope (queue.SMSMessage). -/
structure SMSEnvelope where
  uuid : String
  message : SMSMessageBody
deriving DecidableEq, Repr

/-- A database write performed by the SMS consumer. -/
inductive SMSAction where
  | insertMessage (m : Message)
  | saveMessage (m : Message)
  | insertEvent (e : SMSEvent)
deriving DecidableEq, Repr

/-- The read results and external outcomes SMSConsumer.processSMSMessage
depends on. `twilioCtor` feeds the CreateSMSProvider factory; `send t`
is the outcome of smsService.SendTemplate for telephone `t`. -/
structure SMSConsumerEnv where
  findMessage : Option Message
  findTemplate : Option Template
  findProvider : Option Provider
  twilioCtor : Except String SMSAdapter
  send : String → Option String
deriving Inhabited

/-- SMSConsumer.rejectMessage: set REJECTED, save, append a REJECTED
event keyed by the numeric id — and return the event insert's result,
which is nil when the store write succeeds. -/
def SMSConsumer.rejectMessage (message : Message) (reason : String) :
    Except String Unit × Message × List SMSAction :=
  let m := { message with status := Status.rejected }
  (.ok (), m,
    [SMSAction.saveMessage m,
     SMSAction.insertEvent { messageID := message.id, status := .rejected, reason := reason }])

/-- SMSConsumer.fetchOrCreateMessageFromDB (same defensive pattern as the
WhatsApp consumer; the ACCEPTED audit event is keyed by the new row's
numeric id). -/
def SMSConsumer.fetchOrCreateMessageFromDB (env : SMSConsumerEnv)
    (messageUUID : String) (message : SMSMessageBody) : Message × List SMSAction :=
  match env.findMessage with
  | some dbMessage => (dbMessage, [])
  | none =>
    let newMessage : Message :=
      { id := 0, uuid := messageUUID, channel := .sms, status := .accepted,
        refNo := message.refNo,
        identifiers := { tenant := message.tenantID, eventUUID := "", actionUUID := "",
                         actionCode := "" },
        categories := [] }
    (newMessage,
      [SMSAction.insertMessage newMessage,
       SMSAction.insertEvent
         { messageID := newMessage.id, status := .accepted,
           reason := "Message created during processing due to missing record" }])

/-- The result of processing one SMS envelope: handler result, write
trace, and the telephones the vendor was actually called for. -/
structure SMSResult where
  result : Except String Unit
  actions : List SMSAction
  sends : List String
deriving Repr

/-- SMSConsumer.processSMSMessage on an already-unmarshalled envelope:
resolve template and provider, build the adapter through
CreateSMSProvider, mark the row ACCEPTED, then — unlike the WhatsApp
consumer — take only the FIRST recipient, render once, make one vendor
call, and reject the whole message on any failure. -/
def SMSConsumer.processSMSMessage (env : SMSConsumerEnv)
    (smsMessage : SMSEnvelope) : SMSResult :=
  let message := smsMessage.message
  let fc := SMSConsumer.fetchOrCreateMessageFromDB env smsMessage.uuid message
  let dbMessage := fc.1
  let acts0 := fc.2
  match env.findTemplate with
  | none =>
    let r := SMSConsumer.rejectMessage dbMessage
      ("template not found or inactive: " ++ message.template)
    { result := r.1, actions := acts0 ++ r.2.2, sends := [] }
  | some template =>
    match env.findProvider with
    | none =>
      let r := SMSConsumer.rejectMessage dbMessage
        ("provider not found or inactive: " ++ message.provider)
      { result := r.1, actions := acts0 ++ r.2.2, sends := [] }
    | some provider =>
      match CreateSMSProvider provider env.twilioCtor with
      | .error e =>
        let r := SMSConsumer.rejectMessage dbMessage
          ("failed to create SMS provider: " ++ e)
        { result := r.1, actions := acts0 ++ r.2.2, sends := [] }
      | .ok _ =>
        let m1 := { dbMessage with status := Status.accepted }
        let acts1 := acts0 ++ [SMSAction.saveMessage m1]
        match message.To with
        | [] =>
          let r := SMSConsumer.rejectMessage m1 ("no recipients found in SMS message")
          { result := r.1, actions := acts1 ++ r.2.2, sends := [] }
        | first :: _ =>
          let toNumber := first.telephone
          match RenderTemplate template.content message.params with
          | .error e =>
            let r := SMSConsumer.rejectMessage m1
              ("Failed to render template for " ++ toNumber ++ ": " ++ e)
            { result := r.1, actions := acts1 ++ r.2.2, sends := [] }
          | .ok _ =>
            match env.send toNumber with
            | some err =>
              let r := SMSConsumer.rejectMessage m1
                ("Failed to send SMS message to " ++ toNumber ++ ": " ++ err)
              { result := r.1, actions := acts1 ++ r.2.2, sends := [toNumber] }
            | none =>
              let m2 := { m1 with status := Status.sent }
              { result := .ok (),
                actions := acts1 ++
                  [SMSAction.insertEvent
                    { messageID := m1.id, status := .sent,
                      reason := "Message sent successfully" },
                   SMSAction.saveMessage m2, SMSAction.saveMessage m2],
                sends := [toNumber] }

/-! ## Email consumer (src/src/services/queue/email_consumer.go,
EmailConsumer.handleMessage) -/

/-- A database write performed by the email consumer.
`statusWrite` is the Message.Status value saved by updateMessageStatus,
which also appends an event with the same status. -/
inductive EmailAction where
  | insertMessage (m : Message)
  | statusWrite (s : Status)
  | insertEvent (s : Status)
deriving DecidableEq, Repr

/-- The read results and external outcomes EmailConsumer.handleMessage
depends on. `emailService` is the NewEmailService result and `sendEmail`
the EmailService.SendEmail result. -/
structure EmailConsumerEnv where
  findMessage : Option Message
  findTemplate : Option Template
  findProvider : Option Provider
  emailService : Except String Unit
  sendEmail : Option String
deriving Inhabited

/-- EmailConsumer.updateMessageStatus: save the given status on the row
and append an event with the same status. -/
def EmailConsumer.updateMessageStatus (status : Status) : List EmailAction :=
  [EmailAction.statusWrite status, EmailAction.insertEvent status]

/-- EmailConsumer.ensureMessageExists: insert a defensive ACCEPTED row
and ACCEPTED event when the UUID is unknown. -/
def EmailConsumer.ensureMessageExists (env : EmailConsumerEnv) (uuid refNo : String) :
    List EmailAction :=
  match env.findMessage with
  | some _ => []
  | none =>
    [EmailAction.insertMessage
      { id := 0, uuid := uuid, channel := .email, status := .accepted, refNo := refNo,
        identifiers := { tenant := "", eventUUID := "", actionUUID := "", actionCode := "" },
        categories := [] },
     EmailAction.insertEvent .accepted]

/-- EmailConsumer.handleMessage: ensure the row exists, set SENT at the
start of processing, resolve template and provider (REJECTED plus a
returned error on failure), create the email service, send, and on
success set the status to DELIVERED. -/
def EmailConsumer.handleMessage (env : EmailConsumerEnv) (uuid refNo : String) :
    Except String Unit × List EmailAction :=
  let acts0 := EmailConsumer.ensureMessageExists env uuid refNo ++
    EmailConsumer.updateMessageStatus .sent
  match env.findTemplate with
  | none => (.error ("template not found"), acts0 ++ EmailConsumer.updateMessageStatus .rejected)
  | some _ =>
    match env.findProvider with
    | none => (.error ("provider not found"), acts0 ++ EmailConsumer.updateMessageStatus .rejected)
    | some _ =>
      match env.emailService with
      | .error e =>
        (.error ("failed to create email service: " ++ e),
         acts0 ++ EmailConsumer.updateMessageStatus .rejected)
      | .ok _ =>
        match env.sendEmail with
        | some e =>
          (.error ("failed to send email: " ++ e),
           acts0 ++ EmailConsumer.updateMessageStatus .rejected)
        | none => (.ok (), acts0 ++ EmailConsumer.updateMessageStatus .delivered)

/-! ## WhatsApp producer (src/unnamed/part_012,
WhatsAppProducer.ProduceWhatsAppMessage) -/

/-- An effect performed by the producer: a successful Message insert on
the store, or a successful publish of the envelope to the topic. -/
inductive ProducerAction where
  | insertMessage (m : Message)
  | publish (e : WhatsAppEnvelope)
deriving DecidableEq, Repr

/-- The store/broker outcomes the producer depends on: the error the
Message insert returns (if any) and the error the Pulsar publish returns
(if any). -/
structure ProducerEnv where
  insertResult : Option String
  publishResult : Option String
deriving DecidableEq, Repr

/-- WhatsAppProducer.ProduceWhatsAppMessage: build the ACCEPTED Message
row, insert it (returning the insert error with no publish on failure),
then build the envelope and publish it, returning the publish result.
The trace records effects that actually took place. -/
def WhatsAppProducer.ProduceWhatsAppMessage (penv : ProducerEnv)
    (message : WhatsAppMessageBody) (uuid : String) :
    Option String × List ProducerAction :=
  let dbMessage : Message :=
    { id := 0, uuid := uuid, channel := .whatsapp, status := .accepted,
      refNo := message.refNo, identifiers := message.identifiers,
      categories := message.categories }
  match penv.insertResult with
  | some err => (some err, [])
  | none =>
    let queueMessage : WhatsAppEnvelope := { uuid := uuid, message := message }
    match penv.publishResult with
    | some err => (some err, [ProducerAction.insertMessage dbMessage])
    | none => (none, [ProducerAction.insertMessage dbMessage,
                      ProducerAction.publish queueMessage])

/-! ## Trace helpers for the consumer claims -/

/-- The number of MessageEvent inserts with the given status in a
WhatsApp consumer write trace. -/
def eventsWithStatus (acts : List DBAction) (st : Status) : Nat :=
  (acts.filter (fun a => match a with
    | DBAction.insertEvent e => e.status == st
    | _ => false)).length

/-- The number of MessageEvent inserts (of any status) in a WhatsApp
consumer write trace. -/
def eventInserts (acts : List DBAction) : Nat :=
  (acts.filter (fun a => match a with
    | DBAction.insertEvent _ => true
    | _ => false)).length

/-- The Message.Status values written (by row insert or row save) in a
WhatsApp consumer write trace. -/
def statusWrites (acts : List DBAction) : List Status :=
  acts.filterMap (fun a => match a with
    | DBAction.insertMessage m => some m.status
    | DBAction.saveMessage m => some m.status
    | DBAction.insertEvent _ => none)

/-- The Message.Status values written in an SMS consumer write trace. -/
def smsStatusWrites (acts : List SMSAction) : List Status :=
  acts.filterMap (fun a => match a with
    | SMSAction.insertMessage m => some m.status
    | SMSAction.saveMessage m => some m.status
    | SMSAction.insertEvent _ => none)

/-- The Message.Status values written in a producer trace. -/
def producerStatusWrites (acts : List ProducerAction) : List Status :=
  acts.filterMap (fun a => match a with
    | ProducerAction.insertMessage m => some m.status
    | ProducerAction.publish _ => none)

/-- A concrete stored Message row for the SMS scenario. -/
def smsRow : Message :=
  { id := 7, uuid := "u3", channel := .sms, status := .accepted, refNo := "r",
    identifiers := ⟨"ten", "", "", ""⟩, categories := [] }

/-- A concrete active SMS template whose content has no placeholders. -/
def smsTpl : Template :=
  { uuid := "t1", name := "welcome", content := "Hi".toList, templateIds := some [] }

/-- A concrete active Twilio SMS provider row. -/
def smsProv : Provider :=
  { uuid := "p1", code := "c1", provider := "TWILIO", name := "tw" }

/-- A concrete SMS environment where everything succeeds: the message
row exists, an active SMS template and Twilio provider resolve, and the
vendor accepts every call. -/
def smsHappyEnv : SMSConsumerEnv :=
  { findMessage := some smsRow, findTemplate := some smsTpl, findProvider := some smsProv,
    twilioCtor := .ok .twilio, send := fun _ => none }

/-- A concrete SMS message body addressed to two recipients. -/
def smsTwoBody : SMSMessageBody :=
  { template := "t1", To := [⟨"111"⟩, ⟨"222"⟩], provider := "p1", refNo := "r",
    tenantID := "ten", params := [] }

/-- A concrete SMS envelope addressed to two recipients. -/
def smsTwoRecipients : SMSEnvelope :=
  { uuid := "u3", message := smsTwoBody }

/-- A concrete stored Message row for the WhatsApp scenarios. -/
def waRow : Message :=
  { id := 3, uuid := "u1", channel := .whatsapp, status := .accepted, refNo := "r",
    identifiers := ⟨"ten", "", "", ""⟩, categories := [] }

/-- A concrete WhatsApp message body. -/
def waBody : WhatsAppMessageBody :=
  { template := "tpl-1", To := [⟨"a", "111"⟩], provider := "prov-1", refNo := "r",
    categories := [], identifiers := ⟨"ten", "", "", ""⟩, params := [] }

/-- A concrete WhatsApp envelope. -/
def waEnvelope : WhatsAppEnvelope := { uuid := "u1", message := waBody }

/-- A concrete WhatsApp environment whose template lookup fails. -/
def waEnvNoTemplate : WhatsAppConsumerEnv :=
  { findMessage := some waRow, findTemplate := none, findProvider := none,
    createProvider := .ok (), send := fun _ => none }

/-- A concrete provider row whose discriminator is lower-case. -/
def lowercaseTwilioProvider : Provider :=
  { uuid := "p2", code := "c2", provider := "twilio", name := "tw" }

/-- A concrete stored Message row for the email scenario. -/
def emailRow : Message :=
  { id := 9, uuid := "u5", channel := .email, status := .accepted, refNo := "r",
    identifiers := ⟨"ten", "", "", ""⟩, categories := [] }

/-- A concrete email template row. -/
def emailTpl : Template :=
  { uuid := "t5", name := "mail", content := "Hi".toList, templateIds := none }

/-- A concrete email provider row. -/
def emailProv : Provider :=
  { uuid := "p5", code := "c5", provider := "SENDGRID", name := "sg" }

/-- A concrete email environment where everything succeeds. -/
def emailHappyEnv : EmailConsumerEnv :=
  { findMessage := some emailRow, findTemplate := some emailTpl,
    findProvider := some emailProv, emailService := .ok (), sendEmail := none }

/-! ## Claim C4: renderer correctness

Abstract placeholder templates: a template is a sequence of literal
chunks and `\x7b\x7bkey\x7d\x7d` placeholders. This is the shape the
spec's placeholder syntax describes; the well-formedness side conditions
(literals free of the open-brace character, keys non-empty and free of
braces and quotes) pin down the fragment on which the rewrite of
RenderTemplate is unambiguous. -/

/-- A part of an abstract placeholder template. -/
inductive TPart where
  | lit (s : List Char)
  | hole (key : List Char)
deriving DecidableEq, Repr

/-- A part of a partially rewritten template: `rew k` is a placeholder
already rewritten to the `\x7b\x7bvar "k"\x7d\x7d` action form. -/
inductive MPart where
  | lit (s : List Char)
  | hole (key : List Char)
  | rew (key : List Char)
deriving DecidableEq, Repr

/-- Inject an abstract template part into the rewritten-part type. -/
def TPart.toM : TPart → MPart
  | .lit s => .lit s
  | .hole k => .hole k

/-- The literal text of one (possibly rewritten) template part. -/
def flattenM : MPart → List Char
  | .lit s => s
  | .hole k => placeholderPat k
  | .rew k => rewrittenPat k

/-- The literal text of a partially rewritten template. -/
def flattenMList (t : List MPart) : List Char := (t.map flattenM).flatten

/-- The literal text of an abstract placeholder template. -/
def flattenT (t : List TPart) : List Char := flattenMList (t.map TPart.toM)

/-- A string free of the open-brace character. -/
def noLB (s : List Char) : Prop := ∀ c ∈ s, c ≠ lbrace

/-- A character allowed in a placeholder key: not a brace and not a
double quote. -/
def plainChar (c : Char) : Prop := c ≠ lbrace ∧ c ≠ rbrace ∧ c ≠ dquote

/-- A well-formed placeholder key: non-empty and made of plain
characters. -/
def plainKey (k : List Char) : Prop := k ≠ [] ∧ ∀ c ∈ k, plainChar c

/-- Well-formedness of a (possibly rewritten) template part. -/
def wfM : MPart → Prop
  | .lit s => noLB s
  | .hole k => plainKey k
  | .rew k => plainKey k

/-- Well-formedness of an abstract template part. -/
def TPart.wf (p : TPart) : Prop := wfM p.toM

/-- The intended meaning of one part under a params map: literal text,
or the looked-up value of the key (empty when absent). -/
def substM (vars : List (List Char × List Char)) : MPart → List Char
  | .lit s => s
  | .hole k => lookupVar vars k
  | .rew k => lookupVar vars k

/-- The intended rendering of a partially rewritten template. -/
def substMList (vars : List (List Char × List Char)) (t : List MPart) : List Char :=
  (t.map (substM vars)).flatten

/-- The intended rendering of an abstract placeholder template: each
literal kept, each placeholder replaced by its key's value. -/
def substT (vars : List (List Char × List Char)) (t : List TPart) : List Char :=
  substMList vars (t.map TPart.toM)

/-- Rewriting of one part by one key: the matching holes become `rew`. -/
def rewriteKey (k : List Char) : MPart → MPart
  | .hole k2 => if k2 = k then .rew k2 else .hole k2
  | p => p

/-- Rewriting by all keys of a params map, in map order (the abstract
counterpart of the replacement loop in RenderTemplate). -/
def rewriteKeys (vars : List (List Char × List Char)) (t : List MPart) : List MPart :=
  vars.foldl (fun acc kv => acc.map (rewriteKey kv.1)) t

/-- A part that is not an unrewritten hole. -/
def noHole : MPart → Prop
  | .hole _ => False
  | _ => True

/-- The expected parse of a flattened lit/rew template: the leading
literal text and the nodes that follow it. -/
def expParse : List MPart → List Char × List Node
  | [] => ([], [])
  | .lit s :: t => (s ++ (expParse t).1, (expParse t).2)
  | .rew k :: t => ([], Node.varCall k :: Node.text (expParse t).1 :: (expParse t).2)
  | .hole _ :: _ => ([], [])

/-- The concrete template Hello {\x7b}{\x7b}name{\x7d}{\x7d} as an
abstract placeholder template. -/
def helloNameTemplate : List TPart :=
  [TPart.lit ("Hello ".toList), TPart.hole ("name".toList)]

/-! ## Codec lemmas and claims C7 / C10 -/

theorem aesBlockSize_eq : aesBlockSize = 16 := rfl

theorem xorBytes_length (a b : List Nat) : (xorBytes a b).length = min a.length b.length := by
  simp [xorBytes]

theorem xorBytes_cancel : ∀ (a b : List Nat), a.length ≤ b.length →
    xorBytes (xorBytes a b) b = a := by
  intro a
  induction a with
  | nil => intro b _; simp [xorBytes]
  | cons x xs ih =>
    intro b hb
    match b with
    | [] => simp at hb
    | y :: ys =>
      have hb' : xs.length ≤ ys.length := by simp at hb; omega
      simp only [xorBytes] at *
      simp only [List.zipWith_cons_cons]
      have hx : Nat.xor (Nat.xor x y) y = x := Nat.xor_cancel_right y x
      rw [hx, ih ys hb']

theorem cfbEncryptF_nil (E : List Nat → List Nat) (fuel : Nat) (prev : List Nat) :
    cfbEncryptF E fuel prev [] = [] := by
  match fuel with
  | 0 => rfl
  | _ + 1 => simp [cfbEncryptF]

theorem cfbDecryptF_nil (E : List Nat → List Nat) (fuel : Nat) (prev : List Nat) :
    cfbDecryptF E fuel prev [] = [] := by
  match fuel with
  | 0 => rfl
  | _ + 1 => simp [cfbDecryptF]

theorem cfbEncryptF_length (E : List Nat → List Nat)
    (hE : ∀ x, (E x).length = aesBlockSize) :
    ∀ fuel prev pt, pt.length ≤ fuel → (cfbEncryptF E fuel prev pt).length = pt.length := by
  have hA : 1 ≤ aesBlockSize := by rw [aesBlockSize_eq]; omega
  intro fuel
  induction fuel with
  | zero =>
    intro prev pt hpt
    have hnil : pt = [] := List.eq_nil_of_length_eq_zero (Nat.le_zero.mp hpt)
    subst hnil; rfl
  | succ k ih =>
    intro prev pt hpt
    by_cases hpt0 : pt = []
    · subst hpt0; simp [cfbEncryptF]
    · have hlen1 : 0 < pt.length := List.length_pos.mpr hpt0
      simp only [cfbEncryptF, if_neg hpt0, List.length_append]
      rw [ih _ _ (by simp only [List.length_drop]; omega)]
      rw [xorBytes_length, hE, List.length_take, List.length_drop]
      omega

theorem cfb_roundtripF (E : List Nat → List Nat)
    (hE : ∀ x, (E x).length = aesBlockSize) :
    ∀ fuel f2 prev pt, pt.length ≤ fuel → pt.length ≤ f2 →
      cfbDecryptF E f2 prev (cfbEncryptF E fuel prev pt) = pt := by
  have hA : 1 ≤ aesBlockSize := by rw [aesBlockSize_eq]; omega
  intro fuel
  induction fuel with
  | zero =>
    intro f2 prev pt hpt _
    have hnil : pt = [] := List.eq_nil_of_length_eq_zero (Nat.le_zero.mp hpt)
    subst hnil
    rw [show cfbEncryptF E 0 prev [] = [] from rfl, cfbDecryptF_nil]
  | succ k ih =>
    intro f2 prev pt hpt hf2
    by_cases hpt0 : pt = []
    · subst hpt0; rw [cfbEncryptF_nil, cfbDecryptF_nil]
    · have hlen1 : 0 < pt.length := List.length_pos.mpr hpt0
      obtain ⟨m, rfl⟩ : ∃ m, f2 = m + 1 := ⟨f2 - 1, by omega⟩
      simp only [cfbEncryptF, if_neg hpt0]
      have hclen : (xorBytes (pt.take aesBlockSize) (E prev)).length
          = min pt.length aesBlockSize := by
        rw [xorBytes_length, hE, List.length_take]
        omega
      have hcne : xorBytes (pt.take aesBlockSize) (E prev) ≠ [] := by
        intro h
        have hl := congrArg List.length h
        rw [hclen] at hl
        simp only [List.length_nil] at hl
        omega
      by_cases hsmall : pt.length ≤ aesBlockSize
      · have hdropnil : pt.drop aesBlockSize = [] := List.drop_eq_nil_of_le hsmall
        have htake : pt.take aesBlockSize = pt := List.take_of_length_le hsmall
        rw [hdropnil, cfbEncryptF_nil, List.append_nil]
        simp only [cfbDecryptF, if_neg hcne]
        have hctake : (xorBytes (pt.take aesBlockSize) (E prev)).take aesBlockSize
            = xorBytes (pt.take aesBlockSize) (E prev) :=
          List.take_of_length_le (by rw [hclen]; omega)
        have hcdrop : (xorBytes (pt.take aesBlockSize) (E prev)).drop aesBlockSize = [] :=
          List.drop_eq_nil_of_le (by rw [hclen]; omega)
        rw [hctake, hcdrop, cfbDecryptF_nil, List.append_nil, htake]
        exact xorBytes_cancel pt (E prev) (by rw [hE]; omega)
      · push_neg at hsmall
        have hclen16 : (xorBytes (pt.take aesBlockSize) (E prev)).length = aesBlockSize := by
          rw [hclen]; omega
        have happne : xorBytes (pt.take aesBlockSize) (E prev) ++
            cfbEncryptF E k (xorBytes (pt.take aesBlockSize) (E prev))
              (pt.drop aesBlockSize) ≠ [] := by
          simp [hcne]
        simp only [cfbDecryptF, if_neg happne]
        rw [List.take_left' hclen16, List.drop_left' hclen16]
        rw [ih m (xorBytes (pt.take aesBlockSize) (E prev)) (pt.drop aesBlockSize)
          (by simp only [List.length_drop]; omega) (by simp only [List.length_drop]; omega)]
        rw [xorBytes_cancel _ _ (by rw [hE, List.length_take]; omega)]
        exact List.take_append_drop _ _

theorem cfb_roundtrip (E : List Nat → List Nat)
    (hE : ∀ x, (E x).length = aesBlockSize) (iv pt : List Nat) :
    cfbDecrypt E iv (cfbEncrypt E iv pt) = pt := by
  unfold cfbDecrypt cfbEncrypt
  rw [cfbEncryptF_length E hE _ _ _ (Nat.le_refl _)]
  exact cfb_roundtripF E hE _ _ _ _ (Nat.le_refl _) (Nat.le_refl _)

/-- Claim C7: for every byte string secret and every 32-byte key,
DecryptAES256 inverts EncryptAES256 (for any AES block function `E` of
the key and any 16-byte random IV), and for every key whose length is
not 32 bytes both EncryptAES256 and DecryptAES256 return an error rather
than any truncated or garbled result. -/
theorem EncryptAES256_DecryptAES256_roundtrip (E : List Nat → List Nat)
    (hE : ∀ x, (E x).length = aesBlockSize) (iv : List Nat)
    (hiv : iv.length = aesBlockSize) (secret key : List Nat) :
    (key.length = 32 →
      EncryptAES256 E iv secret key = .ok (iv ++ cfbEncrypt E iv secret) ∧
      DecryptAES256 E (iv ++ cfbEncrypt E iv secret) key = .ok secret) ∧
    (key.length ≠ 32 →
      EncryptAES256 E iv secret key = .error ("encryption key must be 32 bytes for AES-256") ∧
      ∀ ct, DecryptAES256 E ct key = .error ("decryption key must be 32 bytes for AES-256")) := by
  constructor
  · intro hk
    constructor
    · simp [EncryptAES256, hk]
    · have hlen : ¬ (iv ++ cfbEncrypt E iv secret).length < aesBlockSize := by
        simp [List.length_append, hiv]
      have htake : (iv ++ cfbEncrypt E iv secret).take aesBlockSize = iv :=
        List.take_left' hiv
      have hdrop : (iv ++ cfbEncrypt E iv secret).drop aesBlockSize = cfbEncrypt E iv secret :=
        List.drop_left' hiv
      simp only [DecryptAES256]
      rw [if_neg (by omega), if_neg hlen, htake, hdrop, cfb_roundtrip E hE]
  · intro hk
    constructor
    · simp [EncryptAES256, hk]
    · intro ct
      simp [DecryptAES256, hk]

/-- Witness for C7: a concrete block function, IV, 2-byte secret and
32-byte key; the roundtrip returns the secret, and a 31-byte key is
rejected. -/
theorem EncryptAES256_DecryptAES256_roundtrip_witness :
    (DecryptAES256 (fun _ => List.replicate 16 5) (List.replicate 16 9 ++
        cfbEncrypt (fun _ => List.replicate 16 5) (List.replicate 16 9) [7, 200])
      (List.replicate 32 1) = .ok [7, 200]) ∧
    (EncryptAES256 (fun _ => List.replicate 16 5) (List.replicate 16 9) [7, 200]
      (List.replicate 31 1) = .error ("encryption key must be 32 bytes for AES-256")) := by
  constructor
  · exact ((EncryptAES256_DecryptAES256_roundtrip (fun _ => List.replicate 16 5)
      (fun _ => by simp [aesBlockSize]) (List.replicate 16 9) (by simp [aesBlockSize])
      [7, 200] (List.replicate 32 1)).1 (by simp)).2
  · exact ((EncryptAES256_DecryptAES256_roundtrip (fun _ => List.replicate 16 5)
      (fun _ => by simp [aesBlockSize]) (List.replicate 16 9) (by simp [aesBlockSize])
      [7, 200] (List.replicate 31 1)).2 (by simp)).1

/-- Claim C10: for every 32-byte key and every ciphertext shorter than
one AES block (16 bytes), DecryptAES256 returns the "ciphertext too
short" error instead of slicing out of bounds, so the IV extraction at
the head of the ciphertext is always in range. -/
theorem DecryptAES256_short_ciphertext (E : List Nat → List Nat) (ct key : List Nat)
    (hk : key.length = 32) (hct : ct.length < aesBlockSize) :
    DecryptAES256 E ct key = .error ("ciphertext too short") := by
  simp [DecryptAES256, hk, hct]

/-- Witness for C10: a 3-byte ciphertext with a 32-byte key is rejected
as too short. -/
theorem DecryptAES256_short_ciphertext_witness :
    DecryptAES256 (fun _ => List.replicate 16 5) [1, 2, 3] (List.replicate 32 1)
      = .error ("ciphertext too short") :=
  DecryptAES256_short_ciphertext (fun _ => List.replicate 16 5) [1, 2, 3]
    (List.replicate 32 1) (by simp) (by simp [aesBlockSize])

theorem eventsWithStatus_append (a b : List DBAction) (st : Status) :
    eventsWithStatus (a ++ b) st = eventsWithStatus a st + eventsWithStatus b st := by
  simp [eventsWithStatus, List.filter_append]

theorem eventInserts_append (a b : List DBAction) :
    eventInserts (a ++ b) = eventInserts a + eventInserts b := by
  simp [eventInserts, List.filter_append]

theorem statusWrites_append (a b : List DBAction) :
    statusWrites (a ++ b) = statusWrites a ++ statusWrites b := by
  simp [statusWrites]

/-- Loop invariant of WhatsAppConsumer.sendToRecipients when the render
succeeds: the success flag becomes true iff some vendor call succeeded,
exactly one SENT event is appended per successful vendor call and one
REJECTED event per failed one, and every recipient is passed to the
vendor in order. -/
theorem sendToRecipients_loop_spec (send : WhatsAppRecipient → Option String)
    (content : List Char) (params : List (List Char × List Char)) (r : List Char)
    (hrender : RenderTemplate content params = .ok r) :
    ∀ (recips : List WhatsAppRecipient)
      (st : Bool × Message × List DBAction × List WhatsAppRecipient),
      (recips.foldl (WhatsAppConsumer.sendToRecipientsStep send content params) st).1
          = (st.1 || recips.any (fun rc => (send rc).isNone)) ∧
      (recips.foldl (WhatsAppConsumer.sendToRecipientsStep send content params) st).2.1.uuid
          = st.2.1.uuid ∧
      eventsWithStatus
          (recips.foldl (WhatsAppConsumer.sendToRecipientsStep send content params) st).2.2.1
          .sent
        = eventsWithStatus st.2.2.1 .sent
          + (recips.filter (fun rc => (send rc).isNone)).length ∧
      eventsWithStatus
          (recips.foldl (WhatsAppConsumer.sendToRecipientsStep send content params) st).2.2.1
          .rejected
        = eventsWithStatus st.2.2.1 .rejected
          + (recips.filter (fun rc => (send rc).isSome)).length ∧
      (recips.foldl (WhatsAppConsumer.sendToRecipientsStep send content params) st).2.2.2
        = st.2.2.2 ++ recips := by
  intro recips
  induction recips with
  | nil => intro st; simp
  | cons rc rest ih =>
    intro st
    simp only [List.foldl_cons, List.any_cons, List.filter_cons]
    have hstep : WhatsAppConsumer.sendToRecipientsStep send content params st rc =
        match send rc with
        | some err =>
          (st.1, { st.2.1 with status := Status.rejected },
            st.2.2.1 ++ [DBAction.saveMessage { st.2.1 with status := Status.rejected },
              DBAction.insertEvent (WhatsAppConsumer.createRejectionEvent st.2.1.uuid
                ("Failed to send WhatsApp message to " ++ rc.telephone ++ ": " ++ err))],
            st.2.2.2 ++ [rc])
        | none =>
          (true, st.2.1,
            st.2.2.1 ++ [DBAction.insertEvent
              (WhatsAppConsumer.createSuccessEvent st.2.1.uuid)],
            st.2.2.2 ++ [rc]) := by
      simp only [WhatsAppConsumer.sendToRecipientsStep, hrender]
    match hsend : send rc with
    | some err =>
      rw [hstep]
      simp only [hsend]
      have := ih ({ st with
        fst := st.1,
        snd := ({ st.2.1 with status := Status.rejected },
          st.2.2.1 ++ [DBAction.saveMessage { st.2.1 with status := Status.rejected },
            DBAction.insertEvent (WhatsAppConsumer.createRejectionEvent st.2.1.uuid
              ("Failed to send WhatsApp message to " ++ rc.telephone ++ ": " ++ err))],
          st.2.2.2 ++ [rc]) })
      rcases this with ⟨h1, h2, h3, h4, h5⟩
      refine ⟨?_, ?_, ?_, ?_, ?_⟩
      · rw [h1]; simp [hsend]
      · rw [h2]
      · rw [h3]
        simp [hsend, eventsWithStatus_append, eventsWithStatus,
          WhatsAppConsumer.createRejectionEvent]
      · rw [h4]
        simp [hsend, eventsWithStatus_append, eventsWithStatus,
          WhatsAppConsumer.createRejectionEvent]
        omega
      · rw [h5]
        simp [hsend, List.append_assoc]
    | none =>
      rw [hstep]
      simp only [hsend]
      have := ih (true, st.2.1,
        st.2.2.1 ++ [DBAction.insertEvent (WhatsAppConsumer.createSuccessEvent st.2.1.uuid)],
        st.2.2.2 ++ [rc])
      rcases this with ⟨h1, h2, h3, h4, h5⟩
      refine ⟨?_, ?_, ?_, ?_, ?_⟩
      · rw [h1]; simp [hsend]
      · rw [h2]
      · rw [h3]
        simp [hsend, eventsWithStatus_append, eventsWithStatus,
          WhatsAppConsumer.createSuccessEvent]
        omega
      · rw [h4]
        simp [hsend, eventsWithStatus_append, eventsWithStatus,
          WhatsAppConsumer.createSuccessEvent]
      · rw [h5]
        simp [hsend, List.append_assoc]

/-- Claim C1: after WhatsAppConsumer.sendToRecipients processes a batch
(with the template rendering succeeding), the final Message.Status saved
is SENT when at least one recipient's vendor send succeeded and REJECTED
when none succeeded, and the write trace holds exactly one SENT event
per succeeded recipient and one REJECTED event per failed recipient. -/
theorem sendToRecipients_batch_status (send : WhatsAppRecipient → Option String)
    (m0 : Message) (recips : List WhatsAppRecipient) (tid : String)
    (params : List (List Char × List Char)) (content : List Char) (r : List Char)
    (hrender : RenderTemplate content params = .ok r) :
    (WhatsAppConsumer.sendToRecipients send m0 recips tid params content).1.status
      = (if recips.any (fun rc => (send rc).isNone) then Status.sent else Status.rejected) ∧
    eventsWithStatus (WhatsAppConsumer.sendToRecipients send m0 recips tid params content).2.1
        .sent
      = (recips.filter (fun rc => (send rc).isNone)).length ∧
    eventsWithStatus (WhatsAppConsumer.sendToRecipients send m0 recips tid params content).2.1
        .rejected
      = (recips.filter (fun rc => (send rc).isSome)).length := by
  obtain ⟨h1, _, h3, h4, _⟩ := sendToRecipients_loop_spec send content params r hrender recips
    (false, m0, [], [])
  refine ⟨?_, ?_, ?_⟩
  · simp only [WhatsAppConsumer.sendToRecipients, h1, Bool.false_or]
  · simp only [WhatsAppConsumer.sendToRecipients, eventsWithStatus_append, h3]
    simp [eventsWithStatus]
  · simp only [WhatsAppConsumer.sendToRecipients, eventsWithStatus_append, h4]
    simp [eventsWithStatus]

/-- Witness for C1: the spec's Scenario A — three recipients where the
vendor call fails for the first and third and succeeds for the second —
ends with Message.Status SENT, one SENT event and two REJECTED events. -/
theorem sendToRecipients_batch_status_witness :
    (WhatsAppConsumer.sendToRecipients
        (fun rc => if rc.telephone == "2" then none else some ("vendor down"))
        { id := 1, uuid := "u1", channel := .whatsapp, status := .accepted, refNo := "r",
          identifiers := ⟨"t", "", "", ""⟩, categories := [] }
        [⟨"a", "1"⟩, ⟨"b", "2"⟩, ⟨"c", "3"⟩] "tid" [] ("Hi".toList)).1.status
      = Status.sent ∧
    eventsWithStatus (WhatsAppConsumer.sendToRecipients
        (fun rc => if rc.telephone == "2" then none else some ("vendor down"))
        { id := 1, uuid := "u1", channel := .whatsapp, status := .accepted, refNo := "r",
          identifiers := ⟨"t", "", "", ""⟩, categories := [] }
        [⟨"a", "1"⟩, ⟨"b", "2"⟩, ⟨"c", "3"⟩] "tid" [] ("Hi".toList)).2.1 .sent = 1 ∧
    eventsWithStatus (WhatsAppConsumer.sendToRecipients
        (fun rc => if rc.telephone == "2" then none else some ("vendor down"))
        { id := 1, uuid := "u1", channel := .whatsapp, status := .accepted, refNo := "r",
          identifiers := ⟨"t", "", "", ""⟩, categories := [] }
        [⟨"a", "1"⟩, ⟨"b", "2"⟩, ⟨"c", "3"⟩] "tid" [] ("Hi".toList)).2.1 .rejected = 2 := by
  obtain ⟨h1, h2, h3⟩ := sendToRecipients_batch_status
    (fun rc => if rc.telephone == "2" then none else some ("vendor down"))
    { id := 1, uuid := "u1", channel := .whatsapp, status := .accepted, refNo := "r",
      identifiers := ⟨"t", "", "", ""⟩, categories := [] }
    [⟨"a", "1"⟩, ⟨"b", "2"⟩, ⟨"c", "3"⟩] "tid" [] ("Hi".toList) ("Hi".toList) rfl
  refine ⟨?_, ?_, ?_⟩
  · rw [h1]; rfl
  · rw [h2]; rfl
  · rw [h3]; rfl

/-- Loop invariant of WhatsAppConsumer.sendToRecipients that needs no
assumption on rendering: every loop iteration appends exactly one
MessageEvent, so the batch is never cut short. -/
theorem sendToRecipients_loop_events (send : WhatsAppRecipient → Option String)
    (content : List Char) (params : List (List Char × List Char)) :
    ∀ (recips : List WhatsAppRecipient)
      (st : Bool × Message × List DBAction × List WhatsAppRecipient),
      eventInserts
          (recips.foldl (WhatsAppConsumer.sendToRecipientsStep send content params) st).2.2.1
        = eventInserts st.2.2.1 + recips.length := by
  intro recips
  induction recips with
  | nil => intro st; simp
  | cons rc rest ih =>
    intro st
    simp only [List.foldl_cons, List.length_cons]
    rw [ih]
    simp only [WhatsAppConsumer.sendToRecipientsStep]
    match RenderTemplate content params with
    | .error e =>
      simp [eventInserts_append, eventInserts]
      omega
    | .ok rendered =>
      match send rc with
      | some err =>
        simp [eventInserts_append, eventInserts]
        omega
      | none =>
        simp [eventInserts_append, eventInserts]
        omega

/-- Amended claim C3: the WhatsApp consumer's sendToRecipients attempts
every recipient — when rendering succeeds, the vendor is called once per
recipient, in order; and regardless of rendering, exactly one
MessageEvent is appended per recipient, so a failure for one recipient
never cuts the batch short. (The SMS consumer, by contrast, attempts
only the first recipient — see the counterexample.) -/
theorem sendToRecipients_attempts_every_recipient (send : WhatsAppRecipient → Option String)
    (m0 : Message) (recips : List WhatsAppRecipient) (tid : String)
    (params : List (List Char × List Char)) (content : List Char) (r : List Char)
    (hrender : RenderTemplate content params = .ok r) :
    (WhatsAppConsumer.sendToRecipients send m0 recips tid params content).2.2 = recips ∧
    eventInserts (WhatsAppConsumer.sendToRecipients send m0 recips tid params content).2.1
      = recips.length := by
  obtain ⟨_, _, _, _, h5⟩ := sendToRecipients_loop_spec send content params r hrender recips
    (false, m0, [], [])
  have hev := sendToRecipients_loop_events send content params recips (false, m0, [], [])
  constructor
  · simp only [WhatsAppConsumer.sendToRecipients, h5]
    simp
  · simp only [WhatsAppConsumer.sendToRecipients, eventInserts_append, hev]
    simp [eventInserts]

/-- Witness for C3's amended claim: two recipients with the first send
failing — the vendor-call trace still lists both recipients and two
events are appended. -/
theorem sendToRecipients_attempts_every_recipient_witness :
    (WhatsAppConsumer.sendToRecipients
        (fun rc => if rc.telephone == "1" then some ("down") else none)
        { id := 1, uuid := "u1", channel := .whatsapp, status := .accepted, refNo := "r",
          identifiers := ⟨"t", "", "", ""⟩, categories := [] }
        [⟨"a", "1"⟩, ⟨"b", "2"⟩] "tid" [] ("Hi".toList)).2.2
      = [⟨"a", "1"⟩, ⟨"b", "2"⟩] ∧
    eventInserts (WhatsAppConsumer.sendToRecipients
        (fun rc => if rc.telephone == "1" then some ("down") else none)
        { id := 1, uuid := "u1", channel := .whatsapp, status := .accepted, refNo := "r",
          identifiers := ⟨"t", "", "", ""⟩, categories := [] }
        [⟨"a", "1"⟩, ⟨"b", "2"⟩] "tid" [] ("Hi".toList)).2.1 = 2 :=
  sendToRecipients_attempts_every_recipient
    (fun rc => if rc.telephone == "1" then some ("down") else none)
    { id := 1, uuid := "u1", channel := .whatsapp, status := .accepted, refNo := "r",
      identifiers := ⟨"t", "", "", ""⟩, categories := [] }
    [⟨"a", "1"⟩, ⟨"b", "2"⟩] "tid" [] ("Hi".toList) ("Hi".toList) rfl

/-- Counterexample to claim C3: the SMS consumer processes an envelope
with two recipients but calls the vendor for the first telephone only —
the second recipient in the list is never attempted, so "every recipient
in the list is attempted" fails on the SMS consumer. -/
theorem sms_attempts_first_recipient_only_counterexample :
    (SMSConsumer.processSMSMessage smsHappyEnv smsTwoRecipients).sends = ["111"] ∧
    smsTwoRecipients.message.To.length = 2 := by
  constructor
  · rfl
  · rfl

/-- Amended claim C2: on a missing/inactive template or provider the
WhatsApp consumer does set Message.Status to REJECTED and append a
REJECTED event carrying the reason — but rejectMessage returns
`errors.New(reason)`, handleMessage returns that non-nil error, and
ConsumeMessages therefore Nacks the envelope: the rejection is not
terminal and the broker redelivers it. -/
theorem whatsapp_rejection_path (env : WhatsAppConsumerEnv) (qm : WhatsAppEnvelope) :
    (env.findTemplate = none →
      (WhatsAppConsumer.handleMessage env qm).result
        = .error ("template not found or inactive: " ++ qm.message.template) ∧
      (WhatsAppConsumer.handleMessage env qm).actions
        = (WhatsAppConsumer.fetchOrCreateMessageFromDB env qm.uuid qm.message).2 ++
          [DBAction.saveMessage
            { (WhatsAppConsumer.fetchOrCreateMessageFromDB env qm.uuid qm.message).1 with
              status := Status.rejected },
           DBAction.insertEvent
            { messageID :=
                (WhatsAppConsumer.fetchOrCreateMessageFromDB env qm.uuid qm.message).1.uuid,
              status := Status.rejected,
              reason := "template not found or inactive: " ++ qm.message.template }] ∧
      consumeOutcome (WhatsAppConsumer.handleMessage env qm).result = .nack) ∧
    (∀ t, env.findTemplate = some t → env.findProvider = none →
      (WhatsAppConsumer.handleMessage env qm).result
        = .error ("provider not found or inactive: " ++ qm.message.provider) ∧
      (WhatsAppConsumer.handleMessage env qm).actions
        = (WhatsAppConsumer.fetchOrCreateMessageFromDB env qm.uuid qm.message).2 ++
          [DBAction.saveMessage
            { (WhatsAppConsumer.fetchOrCreateMessageFromDB env qm.uuid qm.message).1 with
              status := Status.rejected },
           DBAction.insertEvent
            { messageID :=
                (WhatsAppConsumer.fetchOrCreateMessageFromDB env qm.uuid qm.message).1.uuid,
              status := Status.rejected,
              reason := "provider not found or inactive: " ++ qm.message.provider }] ∧
      consumeOutcome (WhatsAppConsumer.handleMessage env qm).result = .nack) := by
  constructor
  · intro h
    simp [WhatsAppConsumer.handleMessage, h, WhatsAppConsumer.rejectMessage,
      WhatsAppConsumer.createRejectionEvent, consumeOutcome]
  · intro t ht hp
    simp [WhatsAppConsumer.handleMessage, ht, hp, WhatsAppConsumer.rejectMessage,
      WhatsAppConsumer.createRejectionEvent, consumeOutcome]

/-- Counterexample to claim C2: for an envelope whose template is
missing, the handler's outcome is a Nack — not the Ack the claim
asserts — so the envelope is redelivered rather than terminal. -/
theorem whatsapp_rejection_nack_counterexample :
    consumeOutcome (WhatsAppConsumer.handleMessage waEnvNoTemplate waEnvelope).result
      = .nack ∧ BrokerOutcome.nack ≠ BrokerOutcome.ack := by
  constructor
  · rfl
  · decide

/-- Witness for C2's amended claim at the concrete missing-template
environment: status REJECTED is saved, the REJECTED event carries the
reason, and the outcome is a Nack. -/
theorem whatsapp_rejection_path_witness :
    (WhatsAppConsumer.handleMessage waEnvNoTemplate waEnvelope).result
      = .error ("template not found or inactive: tpl-1") ∧
    (WhatsAppConsumer.handleMessage waEnvNoTemplate waEnvelope).actions
      = [DBAction.saveMessage { waRow with status := Status.rejected },
         DBAction.insertEvent
          { messageID := "u1", status := Status.rejected,
            reason := "template not found or inactive: tpl-1" }] ∧
    consumeOutcome (WhatsAppConsumer.handleMessage waEnvNoTemplate waEnvelope).result
      = .nack := by
  obtain ⟨h1, h2, h3⟩ := (whatsapp_rejection_path waEnvNoTemplate waEnvelope).1 rfl
  exact ⟨h1, by rw [h2]; rfl, h3⟩

/-- Claim C8: the defensive fetch-or-create step is idempotent — when a
Message row with the envelope's UUID already exists, it is returned
unchanged and the write trace is empty (no insert), so reprocessing the
identical envelope never creates a second row for the UUID. -/
theorem fetchOrCreateMessageFromDB_idempotent (env : WhatsAppConsumerEnv)
    (messageUUID : String) (body : WhatsAppMessageBody) (m : Message)
    (h : env.findMessage = some m) :
    WhatsAppConsumer.fetchOrCreateMessageFromDB env messageUUID body = (m, []) := by
  simp [WhatsAppConsumer.fetchOrCreateMessageFromDB, h]

/-- Witness for C8 at a concrete stored row. -/
theorem fetchOrCreateMessageFromDB_idempotent_witness :
    WhatsAppConsumer.fetchOrCreateMessageFromDB waEnvNoTemplate ("u1") waBody = (waRow, []) :=
  fetchOrCreateMessageFromDB_idempotent waEnvNoTemplate ("u1") waBody waRow rfl

/-- Claim C6: the producer inserts the ACCEPTED Message row first and
publishes only afterwards — an insert error is returned with no publish
performed, and any published envelope sits after an insert of a row
carrying the same UUID (and the published envelope carries that UUID). -/
theorem ProduceWhatsAppMessage_insert_before_publish (penv : ProducerEnv)
    (body : WhatsAppMessageBody) (uuid : String) :
    (∀ e, penv.insertResult = some e →
      WhatsAppProducer.ProduceWhatsAppMessage penv body uuid = (some e, [])) ∧
    (∀ env2, ProducerAction.publish env2
        ∈ (WhatsAppProducer.ProduceWhatsAppMessage penv body uuid).2 →
      env2.uuid = uuid ∧
      (WhatsAppProducer.ProduceWhatsAppMessage penv body uuid).2
        = [ProducerAction.insertMessage
            { id := 0, uuid := uuid, channel := .whatsapp, status := .accepted,
              refNo := body.refNo, identifiers := body.identifiers,
              categories := body.categories },
           ProducerAction.publish env2]) := by
  constructor
  · intro e he
    simp [WhatsAppProducer.ProduceWhatsAppMessage, he]
  · intro env2 hmem
    match hins : penv.insertResult with
    | some e =>
      rw [WhatsAppProducer.ProduceWhatsAppMessage, hins] at hmem
      simp at hmem
    | none =>
      match hpub : penv.publishResult with
      | some e =>
        rw [WhatsAppProducer.ProduceWhatsAppMessage, hins, hpub] at hmem
        simp at hmem
      | none =>
        rw [WhatsAppProducer.ProduceWhatsAppMessage, hins, hpub] at hmem
        simp at hmem
        subst hmem
        rw [WhatsAppProducer.ProduceWhatsAppMessage, hins, hpub]
        exact ⟨rfl, rfl⟩

/-- Witness for C6: with a failing store insert the producer returns the
insert error and performs no effect at all; with both store and broker
succeeding the trace is exactly insert-then-publish. -/
theorem ProduceWhatsAppMessage_insert_before_publish_witness :
    WhatsAppProducer.ProduceWhatsAppMessage ⟨some ("db down"), none⟩ waBody ("u9")
      = (some ("db down"), []) ∧
    (WhatsAppProducer.ProduceWhatsAppMessage ⟨none, none⟩ waBody ("u9")).2
      = [ProducerAction.insertMessage
          { id := 0, uuid := "u9", channel := .whatsapp, status := .accepted,
            refNo := waBody.refNo, identifiers := waBody.identifiers,
            categories := waBody.categories },
         ProducerAction.publish ⟨"u9", waBody⟩] := by
  constructor
  · exact (ProduceWhatsAppMessage_insert_before_publish ⟨some ("db down"), none⟩ waBody ("u9")).1
      ("db down") rfl
  · exact ((ProduceWhatsAppMessage_insert_before_publish ⟨none, none⟩ waBody ("u9")).2
      ⟨"u9", waBody⟩ (by rw [WhatsAppProducer.ProduceWhatsAppMessage]; simp)).2

/-- Counterexample to claim C9: the WhatsApp provider factory switches
on the raw discriminator, so the capitalization variant "twilio" of the
supported vendor is NOT dispatched to the Twilio adapter — it falls to
the unsupported-provider error, refuting case-insensitive dispatch. -/
theorem CreateWhatsAppProvider_lowercase_counterexample :
    CreateWhatsAppProvider lowercaseTwilioProvider (.ok .twilio)
      = .error ("unsupported WhatsApp provider implementation: twilio") := rfl

/-- Amended claim C9: the SMS factory dispatches case-insensitively
(any capitalization whose upper-casing is TWILIO selects the Twilio
adapter, and any other discriminator is an error), while the WhatsApp
factory matches the discriminator exactly: only the literal TWILIO
selects the adapter and every other spelling is an error. -/
theorem provider_factory_dispatch (p : Provider)
    (wctor : Except String WhatsAppAdapter) (sctor : Except String SMSAdapter) :
    (goToUpper p.provider = "TWILIO" → CreateSMSProvider p sctor = sctor) ∧
    (goToUpper p.provider ≠ "TWILIO" →
      CreateSMSProvider p sctor
        = .error ("unsupported SMS provider implementation: " ++ p.provider)) ∧
    (p.provider = "TWILIO" → CreateWhatsAppProvider p wctor = wctor) ∧
    (p.provider ≠ "TWILIO" →
      CreateWhatsAppProvider p wctor
        = .error ("unsupported WhatsApp provider implementation: " ++ p.provider)) := by
  refine ⟨?_, ?_, ?_, ?_⟩ <;> intro h <;> simp [CreateSMSProvider, CreateWhatsAppProvider, h]

/-- Witness for C9's amended claim: the mixed-case discriminator tWiLiO
selects the Twilio SMS adapter through the SMS factory but is rejected
by the WhatsApp factory. -/
theorem provider_factory_dispatch_witness :
    CreateSMSProvider { uuid := "p", code := "c", provider := "tWiLiO", name := "n" }
      (.ok .twilio) = .ok .twilio ∧
    CreateWhatsAppProvider { uuid := "p", code := "c", provider := "tWiLiO", name := "n" }
      (.ok .twilio) = .error ("unsupported WhatsApp provider implementation: tWiLiO") := by
  constructor
  · exact (provider_factory_dispatch
      { uuid := "p", code := "c", provider := "tWiLiO", name := "n" }
      (.ok .twilio) (.ok .twilio)).1 (by decide)
  · exact (provider_factory_dispatch
      { uuid := "p", code := "c", provider := "tWiLiO", name := "n" }
      (.ok .twilio) (.ok .twilio)).2.2.2 (by decide)

/-! ## Claim C5: Message.Status confinement -/

theorem fetchOrCreate_statusWrites (env : WhatsAppConsumerEnv) (u : String)
    (body : WhatsAppMessageBody) :
    ∀ s ∈ statusWrites (WhatsAppConsumer.fetchOrCreateMessageFromDB env u body).2,
      s = Status.accepted := by
  cases h : env.findMessage <;>
    simp [WhatsAppConsumer.fetchOrCreateMessageFromDB, h, statusWrites]

theorem sendToRecipients_loop_statusWrites (send : WhatsAppRecipient → Option String)
    (content : List Char) (params : List (List Char × List Char)) :
    ∀ (recips : List WhatsAppRecipient)
      (st : Bool × Message × List DBAction × List WhatsAppRecipient),
      (∀ s ∈ statusWrites st.2.2.1, s = Status.accepted ∨ s = Status.sent ∨ s = Status.rejected) →
      ∀ s ∈ statusWrites
          (recips.foldl (WhatsAppConsumer.sendToRecipientsStep send content params) st).2.2.1,
        s = Status.accepted ∨ s = Status.sent ∨ s = Status.rejected := by
  intro recips
  induction recips with
  | nil => intro st h; exact h
  | cons rc rest ih =>
    intro st h
    simp only [List.foldl_cons]
    apply ih
    simp only [WhatsAppConsumer.sendToRecipientsStep]
    cases hr : RenderTemplate content params with
    | error e =>
      simp only [statusWrites_append]
      intro s hs
      rcases List.mem_append.mp hs with h1 | h2
      · exact h s h1
      · simp [statusWrites] at h2
        simp [h2]
    | ok rendered =>
      cases hsend : send rc with
      | some err =>
        simp only [statusWrites_append]
        intro s hs
        rcases List.mem_append.mp hs with h1 | h2
        · exact h s h1
        · simp [statusWrites] at h2
          simp [h2]
      | none =>
        simp only [statusWrites_append]
        intro s hs
        rcases List.mem_append.mp hs with h1 | h2
        · exact h s h1
        · simp [statusWrites] at h2

theorem whatsapp_statusWrites_confined (env : WhatsAppConsumerEnv) (qm : WhatsAppEnvelope) :
    ∀ s ∈ statusWrites (WhatsAppConsumer.handleMessage env qm).actions,
      s = Status.accepted ∨ s = Status.sent ∨ s = Status.rejected := by
  have hfc := fetchOrCreate_statusWrites env qm.uuid qm.message
  have hrej : ∀ (m : Message) (reason : String) (s : Status),
      s ∈ statusWrites (WhatsAppConsumer.rejectMessage m reason).2.2 → s = Status.rejected := by
    intro m reason s hs
    simp [WhatsAppConsumer.rejectMessage, statusWrites] at hs
    exact hs
  simp only [WhatsAppConsumer.handleMessage]
  cases htpl : env.findTemplate with
  | none =>
    simp only [statusWrites_append]
    intro s hs
    rcases List.mem_append.mp hs with h1 | h2
    · exact Or.inl (hfc s h1)
    · exact Or.inr (Or.inr (hrej _ _ s h2))
  | some t =>
    cases hprov : env.findProvider with
    | none =>
      simp only [statusWrites_append]
      intro s hs
      rcases List.mem_append.mp hs with h1 | h2
      · exact Or.inl (hfc s h1)
      · exact Or.inr (Or.inr (hrej _ _ s h2))
    | some p =>
      cases hgid : WhatsAppConsumer.getProviderTemplateID t p.provider with
      | error e =>
        simp only [hgid, statusWrites_append]
        intro s hs
        rcases List.mem_append.mp hs with h1 | h2
        · exact Or.inl (hfc s h1)
        · exact Or.inr (Or.inr (hrej _ _ s h2))
      | ok tid =>
        simp only [hgid]
        cases hcp : env.createProvider with
        | error e =>
          simp only [statusWrites_append]
          intro s hs
          rcases List.mem_append.mp hs with h1 | h2
          · exact Or.inl (hfc s h1)
          · exact Or.inr (Or.inr (hrej _ _ s h2))
        | ok u =>
          simp only [hcp, WhatsAppConsumer.sendToRecipients, statusWrites_append]
          intro s hs
          have hloop := sendToRecipients_loop_statusWrites env.send t.content
            qm.message.params qm.message.To
            (false, { (WhatsAppConsumer.fetchOrCreateMessageFromDB env qm.uuid qm.message).1
              with status := Status.accepted }, [], [])
            (by simp [statusWrites])
          simp only [List.mem_append] at hs
          rcases hs with (((h | h) | (h | h)) | h)
          · exact Or.inl (hfc s h)
          · simp [statusWrites] at h
            simp [h]
          · exact hloop s h
          · simp [statusWrites] at h
            split at h <;> simp [h]
          · simp [statusWrites] at h
            split at h <;> simp [h]

theorem sms_statusWrites_confined (env : SMSConsumerEnv) (qm : SMSEnvelope) :
    ∀ s ∈ smsStatusWrites (SMSConsumer.processSMSMessage env qm).actions,
      s = Status.accepted ∨ s = Status.sent ∨ s = Status.rejected := by
  have hfc : ∀ s ∈ smsStatusWrites
      (SMSConsumer.fetchOrCreateMessageFromDB env qm.uuid qm.message).2,
      s = Status.accepted := by
    cases h : env.findMessage <;>
      simp [SMSConsumer.fetchOrCreateMessageFromDB, h, smsStatusWrites]
  have hrej : ∀ (m : Message) (reason : String) (s : Status),
      s ∈ smsStatusWrites (SMSConsumer.rejectMessage m reason).2.2 → s = Status.rejected := by
    intro m reason s hs
    simp [SMSConsumer.rejectMessage, smsStatusWrites] at hs
    exact hs
  have happ : ∀ (a b : List SMSAction), smsStatusWrites (a ++ b)
      = smsStatusWrites a ++ smsStatusWrites b := by
    intro a b; simp [smsStatusWrites]
  simp only [SMSConsumer.processSMSMessage]
  cases htpl : env.findTemplate with
  | none =>
    simp only [happ]
    intro s hs
    rcases List.mem_append.mp hs with h1 | h2
    · exact Or.inl (hfc s h1)
    · exact Or.inr (Or.inr (hrej _ _ s h2))
  | some t =>
    cases hprov : env.findProvider with
    | none =>
      simp only [happ]
      intro s hs
      rcases List.mem_append.mp hs with h1 | h2
      · exact Or.inl (hfc s h1)
      · exact Or.inr (Or.inr (hrej _ _ s h2))
    | some p =>
      cases hfac : CreateSMSProvider p env.twilioCtor with
      | error e =>
        simp only [hfac, happ]
        intro s hs
        rcases List.mem_append.mp hs with h1 | h2
        · exact Or.inl (hfc s h1)
        · exact Or.inr (Or.inr (hrej _ _ s h2))
      | ok a =>
        simp only [hfac]
        cases hto : qm.message.To with
        | nil =>
          simp only [happ]
          intro s hs
          rcases List.mem_append.mp hs with h1 | h2
          · rcases List.mem_append.mp h1 with h3 | h4
            · exact Or.inl (hfc s h3)
            · simp [smsStatusWrites] at h4
              simp [h4]
          · exact Or.inr (Or.inr (hrej _ _ s h2))
        | cons first others =>
          cases hr : RenderTemplate t.content qm.message.params with
          | error e =>
            simp only [hr, happ]
            intro s hs
            rcases List.mem_append.mp hs with h1 | h2
            · rcases List.mem_append.mp h1 with h3 | h4
              · exact Or.inl (hfc s h3)
              · simp [smsStatusWrites] at h4
                simp [h4]
            · exact Or.inr (Or.inr (hrej _ _ s h2))
          | ok rendered =>
            simp only [hr]
            cases hsend : env.send first.telephone with
            | some err =>
              simp only [hsend, happ]
              intro s hs
              rcases List.mem_append.mp hs with h1 | h2
              · rcases List.mem_append.mp h1 with h3 | h4
                · exact Or.inl (hfc s h3)
                · simp [smsStatusWrites] at h4
                  simp [h4]
              · exact Or.inr (Or.inr (hrej _ _ s h2))
            | none =>
              simp only [hsend, happ]
              intro s hs
              rcases List.mem_append.mp hs with h1 | h2
              · rcases List.mem_append.mp h1 with h3 | h4
                · exact Or.inl (hfc s h3)
                · simp [smsStatusWrites] at h4
                  simp [h4]
              · simp [smsStatusWrites] at h2
                simp [h2]

/-- Amended claim C5: every Message.Status value written by the WhatsApp
producer, the WhatsApp consumer and the SMS consumer stays within
ACCEPTED / SENT / REJECTED — but the claim does not extend to the whole
pipeline: the Email consumer writes DELIVERED (see the counterexample),
so DELIVERED is not populated only by out-of-scope webhook
collaborators. -/
theorem pipeline_status_confined (env : WhatsAppConsumerEnv) (qm : WhatsAppEnvelope)
    (senv : SMSConsumerEnv) (sqm : SMSEnvelope) (penv : ProducerEnv)
    (body : WhatsAppMessageBody) (uuid : String) :
    (∀ s ∈ statusWrites (WhatsAppConsumer.handleMessage env qm).actions,
      s = Status.accepted ∨ s = Status.sent ∨ s = Status.rejected) ∧
    (∀ s ∈ smsStatusWrites (SMSConsumer.processSMSMessage senv sqm).actions,
      s = Status.accepted ∨ s = Status.sent ∨ s = Status.rejected) ∧
    (∀ s ∈ producerStatusWrites (WhatsAppProducer.ProduceWhatsAppMessage penv body uuid).2,
      s = Status.accepted ∨ s = Status.sent ∨ s = Status.rejected) := by
  refine ⟨whatsapp_statusWrites_confined env qm, sms_statusWrites_confined senv sqm, ?_⟩
  intro s hs
  cases hins : penv.insertResult with
  | some e =>
    simp [WhatsAppProducer.ProduceWhatsAppMessage, hins, producerStatusWrites] at hs
  | none =>
    cases hpub : penv.publishResult with
    | some e =>
      simp [WhatsAppProducer.ProduceWhatsAppMessage, hins, hpub, producerStatusWrites] at hs
      simp [hs]
    | none =>
      simp [WhatsAppProducer.ProduceWhatsAppMessage, hins, hpub, producerStatusWrites] at hs
      simp [hs]

/-- Witness for C5's amended claim: at the concrete missing-template
WhatsApp environment, the REJECTED status actually written is inside the
confined set. -/
theorem pipeline_status_confined_witness :
    Status.rejected = Status.accepted ∨ Status.rejected = Status.sent ∨
      Status.rejected = Status.rejected :=
  (pipeline_status_confined waEnvNoTemplate waEnvelope smsHappyEnv smsTwoRecipients
    ⟨none, none⟩ waBody ("u9")).1 Status.rejected (by decide)

/-- Counterexample to claim C5: after a successful send the Email
consumer writes Message.Status = DELIVERED — a status outside
ACCEPTED / SENT / REJECTED — so the pipeline's consumers do not stay
within that set. -/
theorem email_sets_delivered_counterexample :
    EmailAction.statusWrite Status.delivered
        ∈ (EmailConsumer.handleMessage emailHappyEnv ("u5") ("r")).2 ∧
    (Status.delivered ≠ Status.accepted ∧ Status.delivered ≠ Status.sent ∧
      Status.delivered ≠ Status.rejected) := by
  constructor
  · decide
  · decide

/-! ### goReplaceAll unfolding equations -/

theorem goReplaceAllF_irrel : ∀ (f1 f2 : Nat) (s pat rep : List Char),
    s.length ≤ f1 → s.length ≤ f2 → goReplaceAllF f1 s pat rep = goReplaceAllF f2 s pat rep := by
  intro f1
  induction f1 with
  | zero =>
    intro f2 s pat rep h1 _
    have : s = [] := List.eq_nil_of_length_eq_zero (Nat.le_zero.mp h1)
    subst this
    cases f2 <;> rfl
  | succ g1 ih =>
    intro f2 s pat rep h1 h2
    cases s with
    | nil => cases f2 <;> rfl
    | cons c rest =>
      cases f2 with
      | zero => simp at h2
      | succ g2 =>
        simp only [goReplaceAllF]
        by_cases hc : pat ≠ [] ∧ pat.isPrefixOf (c :: rest)
        · rw [if_pos hc, if_pos hc]
          have hd : (rest.drop (pat.length - 1)).length ≤ g1 := by
            simp only [List.length_drop]
            simp at h1
            omega
          have hd2 : (rest.drop (pat.length - 1)).length ≤ g2 := by
            simp only [List.length_drop]
            simp at h2
            omega
          rw [ih g2 _ pat rep hd hd2]
        · rw [if_neg hc, if_neg hc]
          have hr1 : rest.length ≤ g1 := by simp at h1; omega
          have hr2 : rest.length ≤ g2 := by simp at h2; omega
          rw [ih g2 rest pat rep hr1 hr2]

theorem goReplaceAll_nil (pat rep : List Char) : goReplaceAll [] pat rep = [] := rfl

theorem goReplaceAll_cons (c : Char) (rest pat rep : List Char) :
    goReplaceAll (c :: rest) pat rep =
      if pat ≠ [] ∧ pat.isPrefixOf (c :: rest) then
        rep ++ goReplaceAll (rest.drop (pat.length - 1)) pat rep
      else c :: goReplaceAll rest pat rep := by
  show goReplaceAllF (c :: rest).length (c :: rest) pat rep = _
  simp only [List.length_cons, goReplaceAllF]
  by_cases hc : pat ≠ [] ∧ pat.isPrefixOf (c :: rest)
  · rw [if_pos hc, if_pos hc]
    rw [goReplaceAllF_irrel rest.length (rest.drop (pat.length - 1)).length _ pat rep
      (by simp only [List.length_drop]; omega) (Nat.le_refl _)]
    rfl
  · rw [if_neg hc, if_neg hc]
    rfl

theorem goReplaceAll_append_of_no_match (pat rep : List Char) :
    ∀ (chunk rest : List Char),
      (∀ i, i < chunk.length → ¬ (pat.isPrefixOf ((chunk ++ rest).drop i) = true)) →
      goReplaceAll (chunk ++ rest) pat rep = chunk ++ goReplaceAll rest pat rep := by
  intro chunk
  induction chunk with
  | nil => intro rest _; simp
  | cons c ch ih =>
    intro rest h
    rw [List.cons_append, goReplaceAll_cons]
    rw [if_neg (by
      intro hc
      exact h 0 (by simp) (by simpa using hc.2))]
    rw [ih rest (by
      intro i hi
      have := h (i + 1) (by simp; omega)
      simpa using this)]
    simp

/-- No occurrence of a pattern starting with the open brace begins
inside a chunk free of open braces. -/
theorem noLB_no_match (pat' : List Char) (s rest : List Char)
    (hs : ∀ c ∈ s, c ≠ lbrace) :
    ∀ i, i < s.length → ¬ ((lbrace :: pat').isPrefixOf ((s ++ rest).drop i) = true) := by
  intro i hi hpre
  rw [ List.isPrefixOf_iff_prefix] at hpre
  have hdrop : (s ++ rest).drop i = s[i] :: (s.drop (i + 1) ++ rest) := by
    rw [List.drop_append_of_le_length (Nat.le_of_lt hi),
      List.drop_eq_getElem_cons hi, List.cons_append]
  rw [hdrop, List.cons_prefix_cons] at hpre
  exact hs s[i] (List.getElem_mem hi) hpre.1.symm

/-- goReplaceAll passes an open-brace-free chunk through unchanged. -/
theorem goReplaceAll_lit (k rep : List Char) (s rest : List Char) (hs : noLB s) :
    goReplaceAll (s ++ rest) (placeholderPat k) rep
      = s ++ goReplaceAll rest (placeholderPat k) rep :=
  goReplaceAll_append_of_no_match _ _ s rest (noLB_no_match _ s rest hs)

/-- Two distinct brace-free keys close at different points: the one
placeholder tail is never a prefix of the other's. -/
theorem key_tail_no_overlap : ∀ (k k2 rest : List Char),
    (∀ c ∈ k, c ≠ rbrace) → (∀ c ∈ k2, c ≠ rbrace) → k ≠ k2 →
    ¬ ((k ++ [rbrace, rbrace]) <+: (k2 ++ rbrace :: rbrace :: rest)) := by
  intro k
  induction k with
  | nil =>
    intro k2 rest _ hk2 hne hpre
    cases k2 with
    | nil => exact hne rfl
    | cons c2 t2 =>
      simp only [List.nil_append, List.cons_append, List.cons_prefix_cons] at hpre
      exact hk2 c2 (by simp) hpre.1.symm
  | cons c t ih =>
    intro k2 rest hk hk2 hne hpre
    cases k2 with
    | nil =>
      simp only [List.cons_append, List.nil_append, List.cons_prefix_cons] at hpre
      exact hk c (by simp) hpre.1
    | cons c2 t2 =>
      simp only [List.cons_append, List.cons_prefix_cons] at hpre
      rcases hpre with ⟨hc, hpre2⟩
      subst hc
      by_cases ht : t = t2
      · exact hne (by rw [ht])
      · exact ih t2 rest (fun x hx => hk x (by simp [hx])) (fun x hx => hk2 x (by simp [hx])) ht
          (by simpa using hpre2)

/-- A brace-free, quote-free key's placeholder tail is never a prefix of
the rewritten `var "…"` action body. -/
theorem var_tail_no_overlap : ∀ (k k2 rest : List Char),
    (∀ c ∈ k, c ≠ rbrace ∧ c ≠ dquote) →
    ¬ ((k ++ [rbrace, rbrace]) <+:
        ('v' :: 'a' :: 'r' :: ' ' :: dquote :: (k2 ++ dquote :: rbrace :: rbrace :: rest))) := by
  intro k k2 rest hk hpre
  match k, hpre with
  | [], hpre =>
    simp only [List.nil_append, List.cons_prefix_cons] at hpre
    have : rbrace = 'v' := hpre.1
    simp [rbrace] at this
  | [c1], hpre =>
    simp only [List.cons_append, List.nil_append, List.cons_prefix_cons] at hpre
    have : rbrace = 'a' := hpre.2.1
    simp [rbrace] at this
  | [c1, c2], hpre =>
    simp only [List.cons_append, List.nil_append, List.cons_prefix_cons] at hpre
    have : rbrace = 'r' := hpre.2.2.1
    simp [rbrace] at this
  | [c1, c2, c3], hpre =>
    simp only [List.cons_append, List.nil_append, List.cons_prefix_cons] at hpre
    have : rbrace = ' ' := hpre.2.2.2.1
    simp [rbrace] at this
  | [c1, c2, c3, c4], hpre =>
    simp only [List.cons_append, List.nil_append, List.cons_prefix_cons] at hpre
    have : rbrace = dquote := hpre.2.2.2.2.1
    simp [rbrace, dquote] at this
  | c1 :: c2 :: c3 :: c4 :: c5 :: t, hpre =>
    simp only [List.cons_append, List.cons_prefix_cons] at hpre
    exact (hk c5 (by simp)).2 hpre.2.2.2.2.1

/-- goReplaceAll leaves a placeholder with a different key unchanged. -/
theorem goReplaceAll_hole_ne (k k2 rep rest : List Char)
    (hk : plainKey k) (hk2 : plainKey k2) (hne : k ≠ k2) :
    goReplaceAll (placeholderPat k2 ++ rest) (placeholderPat k) rep
      = placeholderPat k2 ++ goReplaceAll rest (placeholderPat k) rep := by
  have hshape : placeholderPat k2 ++ rest
      = lbrace :: lbrace :: ((k2 ++ [rbrace, rbrace]) ++ rest) := by
    simp [placeholderPat]
  rw [hshape, goReplaceAll_cons]
  rw [if_neg (by
    intro ⟨_, hpre⟩
    rw [ List.isPrefixOf_iff_prefix] at hpre
    simp only [placeholderPat, List.cons_prefix_cons, true_and] at hpre
    refine key_tail_no_overlap k k2 rest (fun c hc => (hk.2 c hc).2.1)
      (fun c hc => (hk2.2 c hc).2.1) hne ?_
    simpa [List.append_assoc] using hpre)]
  rw [goReplaceAll_cons]
  rw [if_neg (by
    intro ⟨_, hpre⟩
    rw [ List.isPrefixOf_iff_prefix] at hpre
    obtain ⟨k0, kt, hk0⟩ : ∃ k0 kt, k2 = k0 :: kt := by
      cases k2 with
      | nil => exact absurd rfl hk2.1
      | cons a b => exact ⟨a, b, rfl⟩
    subst hk0
    simp only [placeholderPat, List.cons_append, List.cons_prefix_cons] at hpre
    exact (hk2.2 k0 (by simp)).1 hpre.2.1.symm)]
  rw [goReplaceAll_append_of_no_match _ _ (k2 ++ [rbrace, rbrace]) rest (by
    intro i hi
    refine noLB_no_match _ _ rest ?_ i hi
    intro c hc
    rcases List.mem_append.mp hc with h1 | h2
    · exact (hk2.2 c h1).1
    · simp at h2
      rcases h2 with rfl | rfl
      simp [rbrace, lbrace])]
  simp [placeholderPat]

/-- goReplaceAll replaces an exact placeholder occurrence and continues
after it. -/
theorem goReplaceAll_hole_eq (k rep rest : List Char) :
    goReplaceAll (placeholderPat k ++ rest) (placeholderPat k) rep
      = rep ++ goReplaceAll rest (placeholderPat k) rep := by
  have hshape : placeholderPat k ++ rest
      = lbrace :: ((lbrace :: (k ++ [rbrace, rbrace])) ++ rest) := by
    simp [placeholderPat]
  rw [hshape, goReplaceAll_cons]
  rw [if_pos (by
    refine ⟨by simp [placeholderPat], ?_⟩
    rw [List.isPrefixOf_iff_prefix, ← hshape]
    exact List.prefix_append _ _)]
  have hlen : (placeholderPat k).length - 1 = (lbrace :: (k ++ [rbrace, rbrace])).length := by
    simp [placeholderPat]
  rw [hlen, List.drop_left]

/-- goReplaceAll leaves an already-rewritten action unchanged. -/
theorem goReplaceAll_rew (k k2 rep rest : List Char)
    (hk : plainKey k) (hk2 : plainKey k2) :
    goReplaceAll (rewrittenPat k2 ++ rest) (placeholderPat k) rep
      = rewrittenPat k2 ++ goReplaceAll rest (placeholderPat k) rep := by
  have hshape : rewrittenPat k2 ++ rest
      = lbrace :: lbrace ::
        (('v' :: 'a' :: 'r' :: ' ' :: dquote :: (k2 ++ [dquote, rbrace, rbrace])) ++ rest) := by
    simp [rewrittenPat]
  rw [hshape, goReplaceAll_cons]
  rw [if_neg (by
    intro ⟨_, hpre⟩
    rw [ List.isPrefixOf_iff_prefix] at hpre
    simp only [placeholderPat, List.cons_prefix_cons, true_and] at hpre
    refine var_tail_no_overlap k k2 rest (fun c hc => ⟨(hk.2 c hc).2.1, (hk.2 c hc).2.2⟩) ?_
    simpa [List.append_assoc] using hpre)]
  rw [goReplaceAll_cons]
  rw [if_neg (by
    intro ⟨_, hpre⟩
    rw [ List.isPrefixOf_iff_prefix] at hpre
    simp only [placeholderPat, List.cons_append, List.cons_prefix_cons] at hpre
    have : lbrace = 'v' := hpre.2.1
    simp [lbrace] at this)]
  rw [goReplaceAll_append_of_no_match _ _
    ('v' :: 'a' :: 'r' :: ' ' :: dquote :: (k2 ++ [dquote, rbrace, rbrace])) rest (by
    intro i hi
    refine noLB_no_match _ _ rest ?_ i hi
    intro c hc
    simp only [List.mem_cons] at hc
    rcases hc with rfl | rfl | rfl | rfl | rfl | hc
    · simp [lbrace]
    · simp [lbrace]
    · simp [lbrace]
    · simp [lbrace]
    · simp [lbrace, dquote]
    · rcases List.mem_append.mp hc with h1 | h2
      · exact (hk2.2 c h1).1
      · simp at h2
        rcases h2 with rfl | rfl | rfl <;> simp [lbrace, dquote, rbrace])]
  simp [rewrittenPat]

theorem wfM_rewriteKey (k : List Char) (p : MPart) (h : wfM p) : wfM (rewriteKey k p) := by
  cases p with
  | lit s => exact h
  | hole k2 =>
    simp only [rewriteKey]
    split <;> exact h
  | rew k2 => exact h

/-- One pass of goReplaceAll over a flattened partially rewritten
template rewrites exactly the holes carrying the replaced key. -/
theorem goReplaceAll_flattenM (k : List Char) (hk : plainKey k) :
    ∀ (t : List MPart), (∀ p ∈ t, wfM p) →
      goReplaceAll (flattenMList t) (placeholderPat k) (rewrittenPat k)
        = flattenMList (t.map (rewriteKey k)) := by
  intro t
  induction t with
  | nil => intro _; rfl
  | cons p t ih =>
    intro hwf
    have hft : flattenMList (p :: t) = flattenM p ++ flattenMList t := by
      simp [flattenMList]
    have hwf' : ∀ q ∈ t, wfM q := fun q hq => hwf q (by simp [hq])
    have hwfp : wfM p := hwf p (by simp)
    rw [hft]
    cases p with
    | lit s =>
      rw [show flattenM (MPart.lit s) = s from rfl, goReplaceAll_lit k _ s _ hwfp, ih hwf']
      simp [flattenMList, rewriteKey, flattenM]
    | hole k2 =>
      by_cases hne : k2 = k
      · subst hne
        rw [show flattenM (MPart.hole k2) = placeholderPat k2 from rfl,
          goReplaceAll_hole_eq, ih hwf']
        simp [flattenMList, rewriteKey, flattenM]
      · rw [show flattenM (MPart.hole k2) = placeholderPat k2 from rfl,
          goReplaceAll_hole_ne k k2 _ _ hk hwfp (fun h => hne h.symm), ih hwf']
        simp [flattenMList, rewriteKey, flattenM, hne]
    | rew k2 =>
      rw [show flattenM (MPart.rew k2) = rewrittenPat k2 from rfl,
        goReplaceAll_rew k k2 _ _ hk hwfp, ih hwf']
      simp [flattenMList, rewriteKey, flattenM]

/-- The whole rewrite loop of RenderTemplate, on a flattened template,
equals the abstract key-by-key rewriting. -/
theorem applyVars_flattenM : ∀ (vars : List (List Char × List Char)),
    (∀ kv ∈ vars, plainKey kv.1) →
    ∀ (t : List MPart), (∀ p ∈ t, wfM p) →
      applyVars vars (flattenMList t) = flattenMList (rewriteKeys vars t) := by
  intro vars
  induction vars with
  | nil => intro _ t _; rfl
  | cons kv vars ih =>
    intro hvars t hwf
    have h1 : applyVars (kv :: vars) (flattenMList t)
        = applyVars vars (goReplaceAll (flattenMList t) (placeholderPat kv.1)
            (rewrittenPat kv.1)) := by
      simp [applyVars]
    rw [h1, goReplaceAll_flattenM kv.1 (hvars kv (by simp)) t hwf]
    rw [ih (fun x hx => hvars x (by simp [hx])) (t.map (rewriteKey kv.1))
      (by
        intro q hq
        rcases List.mem_map.mp hq with ⟨p, hp, rfl⟩
        exact wfM_rewriteKey kv.1 p (hwf p hp))]
    rfl

theorem rewriteKeys_eq_map : ∀ (vars : List (List Char × List Char)) (t : List MPart),
    rewriteKeys vars t = t.map (fun p => vars.foldl (fun q kv => rewriteKey kv.1 q) p) := by
  intro vars
  induction vars with
  | nil => intro t; simp [rewriteKeys]
  | cons kv vars ih =>
    intro t
    have : rewriteKeys (kv :: vars) t = rewriteKeys vars (t.map (rewriteKey kv.1)) := rfl
    rw [this, ih, List.map_map]
    rfl

theorem foldl_rewriteKey_lit (s : List Char) : ∀ (vars : List (List Char × List Char)),
    vars.foldl (fun q kv => rewriteKey kv.1 q) (MPart.lit s) = MPart.lit s := by
  intro vars
  induction vars with
  | nil => rfl
  | cons kv vars ih => simpa [rewriteKey] using ih

theorem foldl_rewriteKey_rew (k : List Char) : ∀ (vars : List (List Char × List Char)),
    vars.foldl (fun q kv => rewriteKey kv.1 q) (MPart.rew k) = MPart.rew k := by
  intro vars
  induction vars with
  | nil => rfl
  | cons kv vars ih => simpa [rewriteKey] using ih

theorem foldl_rewriteKey_hole (k : List Char) : ∀ (vars : List (List Char × List Char)),
    k ∈ vars.map Prod.fst →
    vars.foldl (fun q kv => rewriteKey kv.1 q) (MPart.hole k) = MPart.rew k := by
  intro vars
  induction vars with
  | nil => intro h; simp at h
  | cons kv vars ih =>
    intro h
    by_cases hk : k = kv.1
    · simp only [List.foldl_cons, rewriteKey, if_pos hk]
      exact foldl_rewriteKey_rew k vars
    · simp only [List.foldl_cons, rewriteKey, if_neg hk]
      apply ih
      simp at h
      rcases h with h | h
      · exact absurd h hk
      · simpa using h

/-! ### Parser-phase lemmas -/

theorem splitAtOpen_some : ∀ (s txt r : List Char), splitAtOpen s = (txt, some r) →
    s = txt ++ lbrace :: lbrace :: r := by
  intro s
  induction s using splitAtOpen.induct with
  | case1 => intro txt r h; simp [splitAtOpen] at h
  | case2 c => intro txt r h; simp [splitAtOpen] at h
  | case3 c1 c2 rest hc =>
    intro txt r h
    simp only [splitAtOpen, if_pos hc] at h
    rw [Prod.mk.injEq] at h
    obtain ⟨h1, h2⟩ := h
    rw [Option.some.injEq] at h2
    subst h1
    subst h2
    simp [hc.1, hc.2]
  | case4 c1 c2 rest hc ih =>
    intro txt r h
    simp only [splitAtOpen, if_neg hc] at h
    rw [Prod.mk.injEq] at h
    obtain ⟨h1, h2⟩ := h
    have hrec := ih (splitAtOpen (c2 :: rest)).1 r (by rw [← h2])
    subst h1
    simp only [List.cons_append]
    rw [← hrec]

theorem splitAtClose_some : ∀ (s body r : List Char), splitAtClose s = some (body, r) →
    s = body ++ rbrace :: rbrace :: r := by
  intro s
  induction s using splitAtClose.induct with
  | case1 => intro body r h; simp [splitAtClose] at h
  | case2 c => intro body r h; simp [splitAtClose] at h
  | case3 c1 c2 rest hc =>
    intro body r h
    simp only [splitAtClose, if_pos hc] at h
    rw [Option.some.injEq, Prod.mk.injEq] at h
    obtain ⟨h1, h2⟩ := h
    subst h1
    subst h2
    simp [hc.1, hc.2]
  | case4 c1 c2 rest hc p hp ih =>
    intro body r h
    simp only [splitAtClose, if_neg hc, hp] at h
    rw [Option.some.injEq, Prod.mk.injEq] at h
    obtain ⟨h1, h2⟩ := h
    have hrec := ih p.1 r (by rw [hp, ← h2])
    subst h1
    simp only [List.cons_append]
    rw [← hrec]
  | case5 c1 c2 rest hc hp =>
    intro body r h
    simp only [splitAtClose, if_neg hc, hp] at h
    simp at h

theorem splitAtOpen_append_noLB : ∀ (s : List Char), noLB s → ∀ (x : List Char),
    splitAtOpen (s ++ x) = (s ++ (splitAtOpen x).1, (splitAtOpen x).2) := by
  intro s
  induction s with
  | nil => intro _ x; simp
  | cons c s2 ih =>
    intro hs x
    have hc : c ≠ lbrace := hs c (by simp)
    cases hx : s2 ++ x with
    | nil =>
      obtain ⟨hs2, hx0⟩ := List.append_eq_nil.mp hx
      subst hs2
      subst hx0
      simp [splitAtOpen]
    | cons d ds =>
      rw [List.cons_append, hx]
      show splitAtOpen (c :: d :: ds) = _
      simp only [splitAtOpen]
      rw [if_neg (fun hcc => hc hcc.1), ← hx,
        ih (fun a ha => hs a (by simp [ha])) x]
      simp

theorem splitAtClose_append_noRB : ∀ (body : List Char), (∀ c ∈ body, c ≠ rbrace) →
    ∀ (r : List Char), splitAtClose (body ++ rbrace :: rbrace :: r) = some (body, r) := by
  intro body
  induction body with
  | nil =>
    intro _ r
    show splitAtClose (rbrace :: rbrace :: r) = _
    simp [splitAtClose]
  | cons c b2 ih =>
    intro hb r
    have hc : c ≠ rbrace := hb c (by simp)
    cases hx : b2 ++ rbrace :: rbrace :: r with
    | nil => simp at hx
    | cons d ds =>
      rw [List.cons_append, hx]
      show splitAtClose (c :: d :: ds) = _
      simp only [splitAtClose]
      rw [if_neg (fun hcc => hc hcc.1), ← hx,
        ih (fun a ha => hb a (by simp [ha])) r]

theorem parseTemplateF_irrel : ∀ (f1 f2 : Nat) (s : List Char),
    s.length < f1 → s.length < f2 → parseTemplateF f1 s = parseTemplateF f2 s := by
  intro f1
  induction f1 with
  | zero => intro f2 s h1 _; omega
  | succ g1 ih =>
    intro f2 s h1 h2
    obtain ⟨g2, rfl⟩ : ∃ g2, f2 = g2 + 1 := ⟨f2 - 1, by omega⟩
    simp only [parseTemplateF]
    cases ho : splitAtOpen s with
    | mk txt o =>
      cases o with
      | none => simp [ho]
      | some rest =>
        simp only [ho]
        cases hcl : splitAtClose rest with
        | none => rfl
        | some p =>
          obtain ⟨body, rest2⟩ := p
          simp only [hcl]
          cases parseVarAction body with
          | none => rfl
          | some key =>
            have hlen : rest2.length + 4 ≤ s.length := by
              have hs := splitAtOpen_some s txt rest ho
              have hr := splitAtClose_some rest body rest2 hcl
              have := congrArg List.length hs
              have := congrArg List.length hr
              simp [List.length_append] at *
              omega
            rw [ih g2 rest2 (by omega) (by omega)]

theorem parseTemplate_eq (s : List Char) : parseTemplate s =
    match splitAtOpen s with
    | (txt, none) => .ok [Node.text txt]
    | (txt, some rest) =>
      match splitAtClose rest with
      | none => .error ("unclosed action")
      | some (body, rest2) =>
        match parseVarAction body with
        | none => .error ("function not defined")
        | some key =>
          match parseTemplate rest2 with
          | .error e => .error e
          | .ok nodes => .ok (Node.text txt :: Node.varCall key :: nodes) := by
  show parseTemplateF (s.length + 1) s = _
  simp only [parseTemplateF]
  cases ho : splitAtOpen s with
  | mk txt o =>
    cases o with
    | none => simp [ho]
    | some rest =>
      simp only [ho]
      cases hcl : splitAtClose rest with
      | none => rfl
      | some p =>
        obtain ⟨body, rest2⟩ := p
        simp only [hcl]
        cases parseVarAction body with
        | none => rfl
        | some key =>
          have hlen : rest2.length + 4 ≤ s.length := by
            have hs := splitAtOpen_some s txt rest ho
            have hr := splitAtClose_some rest body rest2 hcl
            have := congrArg List.length hs
            have := congrArg List.length hr
            simp [List.length_append] at *
            omega
          rw [show parseTemplateF s.length rest2 = parseTemplate rest2 from
            parseTemplateF_irrel s.length (rest2.length + 1) rest2 (by omega) (by omega)]

theorem takeWhile_key (k : List Char) (hk : ∀ c ∈ k, c ≠ dquote) :
    (k ++ [dquote]).takeWhile (fun c => ¬ (c = dquote)) = k := by
  induction k with
  | nil => simp [List.takeWhile, dquote]
  | cons c k2 ih =>
    rw [List.cons_append, List.takeWhile_cons]
    rw [if_pos (by simpa using hk c (by simp))]
    rw [ih (fun a ha => hk a (by simp [ha]))]

theorem dropWhile_key (k : List Char) (hk : ∀ c ∈ k, c ≠ dquote) :
    (k ++ [dquote]).dropWhile (fun c => ¬ (c = dquote)) = [dquote] := by
  induction k with
  | nil => simp [List.dropWhile, dquote]
  | cons c k2 ih =>
    rw [List.cons_append, List.dropWhile_cons]
    rw [if_pos (by simpa using hk c (by simp))]
    exact ih (fun a ha => hk a (by simp [ha]))

theorem parseVarAction_var (k : List Char) (hk : ∀ c ∈ k, c ≠ dquote) :
    parseVarAction ('v' :: 'a' :: 'r' :: ' ' :: dquote :: (k ++ [dquote])) = some k := by
  have hds : dropSpaces ('v' :: 'a' :: 'r' :: ' ' :: dquote :: (k ++ [dquote]))
      = 'v' :: 'a' :: 'r' :: ' ' :: dquote :: (k ++ [dquote]) := by
    simp only [dropSpaces]
    rw [List.dropWhile_cons, if_neg (by simp)]
  have hds2 : dropSpaces (dquote :: (k ++ [dquote])) = dquote :: (k ++ [dquote]) := by
    simp only [dropSpaces]
    rw [List.dropWhile_cons, if_neg (by simp [dquote])]
  simp only [parseVarAction, hds, hds2]
  rw [if_pos (by simp)]
  rw [if_pos trivial]
  rw [takeWhile_key k hk, dropWhile_key k hk]
  simp [dropSpaces]

/-- Prepending brace-free literal text to a template extends the leading
text node of its parse. -/
theorem parseTemplate_prepend (s : List Char) (hs : noLB s) (x h : List Char) (ns : List Node)
    (hx : parseTemplate x = .ok (Node.text h :: ns)) :
    parseTemplate (s ++ x) = .ok (Node.text (s ++ h) :: ns) := by
  rw [parseTemplate_eq x] at hx
  rw [parseTemplate_eq (s ++ x), splitAtOpen_append_noLB s hs x]
  cases ho : splitAtOpen x with
  | mk txt o =>
    cases o with
    | none =>
      rw [ho] at hx
      simp only at hx
      rw [Except.ok.injEq] at hx
      obtain ⟨h1, h2⟩ : Node.text txt = Node.text h ∧ [] = ns := by
        rw [List.cons.injEq] at hx
        exact hx
      rw [Node.text.injEq] at h1
      subst h1
      subst h2
      simp
    | some rest =>
      rw [ho] at hx
      simp only at hx ⊢
      cases hcl : splitAtClose rest with
      | none => rw [hcl] at hx; simp at hx
      | some p =>
        obtain ⟨body, rest2⟩ := p
        rw [hcl] at hx
        simp only at hx ⊢
        cases hpv : parseVarAction body with
        | none => rw [hpv] at hx; simp at hx
        | some key =>
          rw [hpv] at hx
          simp only at hx ⊢
          cases hpt : parseTemplate rest2 with
          | error e => rw [hpt] at hx; simp at hx
          | ok nodes =>
            rw [hpt] at hx
            simp only [Except.ok.injEq, List.cons.injEq] at hx
            obtain ⟨h1, h2⟩ := hx
            rw [Node.text.injEq] at h1
            subst h1
            subst h2
            simp

theorem parseTemplate_flattenM : ∀ (t : List MPart), (∀ p ∈ t, wfM p) → (∀ p ∈ t, noHole p) →
    parseTemplate (flattenMList t) = .ok (Node.text (expParse t).1 :: (expParse t).2) := by
  intro t
  induction t with
  | nil => intro _ _; rfl
  | cons p t ih =>
    intro hwf hnh
    have hwf' : ∀ q ∈ t, wfM q := fun q hq => hwf q (by simp [hq])
    have hnh' : ∀ q ∈ t, noHole q := fun q hq => hnh q (by simp [hq])
    have hihr := ih hwf' hnh'
    cases p with
    | hole k => exact absurd (hnh (MPart.hole k) (by simp)) (by simp [noHole])
    | lit s =>
      have hft : flattenMList (MPart.lit s :: t) = s ++ flattenMList t := by
        simp [flattenMList, flattenM]
      rw [hft, parseTemplate_prepend s (hwf (MPart.lit s) (by simp)) _ _ _ hihr]
      simp [expParse]
    | rew k =>
      have hk : plainKey k := hwf (MPart.rew k) (by simp)
      have hft : flattenMList (MPart.rew k :: t)
          = lbrace :: lbrace ::
            (('v' :: 'a' :: 'r' :: ' ' :: dquote :: (k ++ [dquote]))
              ++ rbrace :: rbrace :: flattenMList t) := by
        simp [flattenMList, flattenM, rewrittenPat]
      rw [hft]
      rw [parseTemplate_eq]
      have hopen : splitAtOpen (lbrace :: lbrace ::
          (('v' :: 'a' :: 'r' :: ' ' :: dquote :: (k ++ [dquote]))
            ++ rbrace :: rbrace :: flattenMList t))
          = ([], some (('v' :: 'a' :: 'r' :: ' ' :: dquote :: (k ++ [dquote]))
              ++ rbrace :: rbrace :: flattenMList t)) := by
        simp [splitAtOpen]
      have hclose : splitAtClose (('v' :: 'a' :: 'r' :: ' ' :: dquote :: (k ++ [dquote]))
          ++ rbrace :: rbrace :: flattenMList t)
          = some ('v' :: 'a' :: 'r' :: ' ' :: dquote :: (k ++ [dquote]), flattenMList t) := by
        apply splitAtClose_append_noRB
        intro c hc
        simp only [List.mem_cons] at hc
        rcases hc with rfl | rfl | rfl | rfl | rfl | hc
        · simp [rbrace]
        · simp [rbrace]
        · simp [rbrace]
        · simp [rbrace]
        · simp [rbrace, dquote]
        · rcases List.mem_append.mp hc with h1 | h2
          · exact (hk.2 c h1).2.1
          · simp at h2
            subst h2
            simp [rbrace, dquote]
      simp only [hopen, hclose, parseVarAction_var k (fun c hc => (hk.2 c hc).2.2), hihr]
      simp [expParse]

theorem execNodes_expParse (vars : List (List Char × List Char)) :
    ∀ t : List MPart, (∀ p ∈ t, noHole p) →
    execNodes vars (Node.text (expParse t).1 :: (expParse t).2) = substMList vars t := by
  intro t
  induction t with
  | nil => intro _; rfl
  | cons p t ih =>
    intro hnh
    have hihr := ih (fun q hq => hnh q (by simp [hq]))
    cases p with
    | hole k => exact absurd (hnh (MPart.hole k) (by simp)) (by simp [noHole])
    | lit s =>
      simp only [expParse]
      simp only [execNodes, execNode, substMList, List.map_cons, List.flatten_cons] at hihr ⊢
      simp only [substM, List.append_assoc, hihr]
    | rew k =>
      simp only [expParse]
      simp only [execNodes, execNode, substMList, List.map_cons, List.flatten_cons] at hihr ⊢
      simp only [substM, List.nil_append, hihr]

/-- Amended claim C4: RenderTemplate substitutes every placeholder whose
key is present in the params map with that key's value and returns the
rendered string without error — for any placeholder template (literal
chunks free of open braces, keys non-empty and free of braces/quotes)
all of whose placeholder keys appear in the params map, in any map
order. (A placeholder whose key is absent is left unrewritten and
produces a parse error instead — see the counterexample.) -/
theorem RenderTemplate_substitutes_present_keys
    (t : List TPart) (vars : List (List Char × List Char))
    (hwf : ∀ p ∈ t, p.wf)
    (hvars : ∀ kv ∈ vars, plainKey kv.1)
    (hkeys : ∀ p ∈ t, match p with
      | TPart.hole k => k ∈ vars.map Prod.fst
      | _ => True) :
    RenderTemplate (flattenT t) vars = .ok (substT vars t) := by
  have hwfm : ∀ p ∈ t.map TPart.toM, wfM p := by
    intro p hp
    rcases List.mem_map.mp hp with ⟨q, hq, rfl⟩
    exact hwf q hq
  have h1 : applyVars vars (flattenT t) = flattenMList (rewriteKeys vars (t.map TPart.toM)) :=
    applyVars_flattenM vars hvars (t.map TPart.toM) hwfm
  rw [rewriteKeys_eq_map, List.map_map] at h1
  have hparts : ∀ p ∈ t,
      ((fun q : MPart => vars.foldl (fun q kv => rewriteKey kv.1 q) q) ∘ TPart.toM) p
        = (match p with
          | TPart.lit s => MPart.lit s
          | TPart.hole k => MPart.rew k) := by
    intro p hp
    cases p with
    | lit s => exact foldl_rewriteKey_lit s vars
    | hole k =>
      have hkey := hkeys (TPart.hole k) hp
      simp only at hkey
      exact foldl_rewriteKey_hole k vars hkey
  have hwf2 : ∀ q ∈ t.map ((fun q : MPart =>
      vars.foldl (fun q kv => rewriteKey kv.1 q) q) ∘ TPart.toM), wfM q := by
    intro q hq
    rcases List.mem_map.mp hq with ⟨p, hp, rfl⟩
    rw [hparts p hp]
    cases p with
    | lit s => exact hwf (TPart.lit s) hp
    | hole k => exact hwf (TPart.hole k) hp
  have hnh2 : ∀ q ∈ t.map ((fun q : MPart =>
      vars.foldl (fun q kv => rewriteKey kv.1 q) q) ∘ TPart.toM), noHole q := by
    intro q hq
    rcases List.mem_map.mp hq with ⟨p, hp, rfl⟩
    rw [hparts p hp]
    cases p <;> simp [noHole]
  have hparse := parseTemplate_flattenM _ hwf2 hnh2
  have hexec := execNodes_expParse vars _ hnh2
  simp only [RenderTemplate]
  rw [show applyVars vars (flattenT t)
    = flattenMList (t.map ((fun q : MPart =>
        vars.foldl (fun q kv => rewriteKey kv.1 q) q) ∘ TPart.toM)) from h1]
  rw [hparse]
  simp only [Except.ok.injEq]
  rw [hexec]
  simp only [substT, substMList, List.map_map]
  congr 1
  apply List.map_congr_left
  intro p hp
  have hpp := hparts p hp
  simp only [Function.comp_apply] at hpp ⊢
  rw [hpp]
  cases p with
  | lit s => rfl
  | hole k => rfl

/-- Counterexample to claim C4: the syntactically valid template
Hello-placeholder-name with the empty params map makes RenderTemplate
return a parse error (the unrewritten placeholder is an undefined
function for Go text/template), not the empty-string substitution the
claim asserts. -/
theorem RenderTemplate_absent_key_counterexample :
    RenderTemplate (flattenT helloNameTemplate) []
      = .error ("failed to parse template: function not defined") := rfl

/-- Witness for C4's amended claim: with params mapping name to World,
the same template renders to Hello World. -/
theorem RenderTemplate_substitutes_present_keys_witness :
    RenderTemplate (flattenT helloNameTemplate) [(("name".toList), ("World".toList))]
      = .ok ("Hello World".toList) := by
  rw [RenderTemplate_substitutes_present_keys helloNameTemplate
    [(("name".toList), ("World".toList))]
    (by
      intro p hp
      simp only [helloNameTemplate, List.mem_cons, List.not_mem_nil, or_false] at hp
      rcases hp with rfl | rfl
      · show ∀ c ∈ ("Hello ".toList), c ≠ lbrace
        decide
      · refine ⟨by decide, ?_⟩
        show ∀ c ∈ ("name".toList), c ≠ lbrace ∧ c ≠ rbrace ∧ c ≠ dquote
        decide)
    (by
      intro kv hkv
      simp only [List.mem_cons, List.not_mem_nil, or_false] at hkv
      subst hkv
      refine ⟨by decide, ?_⟩
      show ∀ c ∈ ("name".toList), c ≠ lbrace ∧ c ≠ rbrace ∧ c ≠ dquote
      decide)
    (by
      intro p hp
      simp only [helloNameTemplate, List.mem_cons, List.not_mem_nil, or_false] at hp
      rcases hp with rfl | rfl
      · trivial
      · simp)]
  rfl
